import Mathlib

set_option maxRecDepth 16000

/-!
# Verification of the apple purchasing cost simulator

Shallow embedding of `src/original-plan/apple-cost-simulator.tsx`.

Conventions of the embedding:
* JavaScript numbers are modelled by `ℚ`, in two layers.  The exact layer
  (`step`, `uniform`, `farmLoop`, `runStats`, …) denotes each formula of the
  source in exact rational arithmetic; the claims proved over it are
  insensitive to double rounding (determinism, ordering, index selection,
  object/key bookkeeping, `0 / 0` degeneracies).  The binary64 layer
  (`flQ`, `flInt`, `stepJS`, `uniformJS`, `farmLoopJS`, `runStatsJS`, …)
  rounds the exact result of every arithmetic operator to 53 significant
  bits, round to nearest, ties to even, exactly as IEEE-754 double
  evaluation does; the claims whose truth turns on rounding (C3, C8) are
  settled over this layer.
* The RNG state is a natural number; `& 0x7fffffff` on a non-negative value is
  `% 2 ^ 31`.
* A JavaScript division whose denominator can be `0` on a legal input is
  modelled by `jsdiv`, returning `none` where IEEE arithmetic produces a
  non-finite value (`0 / 0 = NaN`).
* UI-only fields (`id`, `name`, `results`) and the React plumbing are omitted:
  the core is modelled as pure functions, as §1 of the spec prescribes.
-/

namespace AppleSim

/-! ## RNG (`createRNG`, source lines 36–60) -/

/-- The divisor `0x7fffffff` used by every RNG operation. -/
def rngDenom : ℕ := 2 ^ 31 - 1

/-- One LCG step: `state = (state * 1103515245 + 12345) & 0x7fffffff`. -/
def step (s : ℕ) : ℕ := (s * 1103515245 + 12345) % 2 ^ 31

/-- Source: `let state = seed || Math.floor(Math.random() * 1000000)`: the seed is used
unless it is falsy (`0` or absent), in which case an ambient random value is
taken.  `ambient` stands for that ambient `Math.random`-derived value. -/
def initState (seed : Option ℕ) (ambient : ℕ) : ℕ :=
  match seed with
  | some s => if s = 0 then ambient else s
  | none => ambient

/-- Source `random()`: advances the state and returns `state / 0x7fffffff`. -/
def rngRandom (s : ℕ) : ℚ × ℕ :=
  ((step s : ℚ) / (rngDenom : ℚ), step s)

/-- Source `integers(min, max)`:
`Math.floor(min + (max - min + 1) * (state = step) / 0x7fffffff)`. -/
def integers (s : ℕ) (lo hi : ℤ) : ℤ × ℕ :=
  (⌊(lo : ℚ) + ((hi : ℚ) - (lo : ℚ) + 1) * (step s : ℚ) / (rngDenom : ℚ)⌋,
    step s)

/-- Source `uniform(min, max)`: advances the state and returns
`min + (max - min) * (state / 0x7fffffff)`. -/
def uniform (s : ℕ) (lo hi : ℚ) : ℚ × ℕ :=
  (lo + (hi - lo) * ((step s : ℚ) / (rngDenom : ℚ)), step s)

/-- The cumulative-sum walk of `choice`: `cumsum += probs[i]; if (r < cumsum)
return i;` and `return n - 1` when the loop ends.  The caller always passes
`n = probs.length`. -/
def choiceLoop (r : ℚ) (n : ℕ) : List ℚ → ℚ → ℕ → ℕ
  | [], _, _ => n - 1
  | p :: ps, cumsum, i =>
      if r < cumsum + p then i else choiceLoop r n ps (cumsum + p) (i + 1)

/-- Source `choice(n, probs)`: draws `r`, then walks the cumulative sum. -/
def choice (s : ℕ) (n : ℕ) (probs : List ℚ) : ℕ × ℕ :=
  let s' := step s
  (choiceLoop ((s' : ℚ) / (rngDenom : ℚ)) n probs 0 0, s')

/-! ## Data model -/

/-- A farm type (numeric fields only; `id`/`name` are display data). -/
structure FarmType where
  sharePercent : ℚ
  minDiscount : ℚ
  maxDiscount : ℚ
deriving DecidableEq

/-- A scenario (numeric fields only). -/
structure Scenario where
  lastYearCost : ℚ
  lastYearFarms : ℚ
  minNewFarms : ℤ
  maxNewFarms : ℤ
  trials : ℤ
  farmTypes : List FarmType
deriving DecidableEq

/-! ## Validator (`validateScenario`, source lines 63–108)

The JavaScript validator fills a plain object `newErrors`; we model that
object as an association list in insertion order, where assigning to a key
that is already present replaces its value in place (JavaScript object
semantics). -/

/-- Keys of the `newErrors` object.  Each constructor corresponds to one
property name of the JavaScript object (with the farm-type index inlined,
mirroring the template keys such as `farmType_0_share`). -/
inductive ErrKey
  | lastYearCost | lastYearFarms | minNewFarms | maxNewFarms | trials
  | farmTypes
  | farmTypeShare (idx : ℕ)
  | farmTypeMinDiscount (idx : ℕ)
  | farmTypeMaxDiscount (idx : ℕ)
  | farmTypeDiscount (idx : ℕ)
deriving DecidableEq

/-- The error messages the validator can produce.  `shareSum` carries the
computed total share that the source interpolates into its message. -/
inductive ErrMsg
  | mustBePositive
  | minExceedsMax
  | trialsRange
  | shareSum (total : ℚ)
  | range0to100
  | maxBelowMin
deriving DecidableEq

/-- The `newErrors` object, in insertion order. -/
abbrev Errors := List (ErrKey × ErrMsg)

/-- Property lookup on the modelled object. -/
def getErr : Errors → ErrKey → Option ErrMsg
  | [], _ => none
  | (k, v) :: es, k' => if k = k' then some v else getErr es k'

/-- Property assignment on the modelled object: an existing key keeps its
position and gets the new value; a new key is appended. -/
def setErr (es : Errors) (k : ErrKey) (v : ErrMsg) : Errors :=
  if (getErr es k).isSome then
    es.map (fun p => if p.1 = k then (k, v) else p)
  else es ++ [(k, v)]

/-- Source: `scenario.farmTypes.reduce((sum, ft) => sum + ft.sharePercent, 0)`. -/
def totalShare (sc : Scenario) : ℚ :=
  (sc.farmTypes.map (·.sharePercent)).sum

/-- The per-farm-type checks of the `forEach` body (source lines 91–104). -/
def validateFarmType (idx : ℕ) (ft : FarmType) (es : Errors) : Errors :=
  let es :=
    if ft.sharePercent < 0 ∨ 100 < ft.sharePercent then
      setErr es (.farmTypeShare idx) .range0to100
    else es
  let es :=
    if ft.minDiscount < 0 ∨ 100 < ft.minDiscount then
      setErr es (.farmTypeMinDiscount idx) .range0to100
    else es
  let es :=
    if ft.maxDiscount < 0 ∨ 100 < ft.maxDiscount then
      setErr es (.farmTypeMaxDiscount idx) .range0to100
    else es
  if ft.maxDiscount < ft.minDiscount then
    setErr es (.farmTypeDiscount idx) .maxBelowMin
  else es

/-- Source `validateScenario`, returning the `newErrors` object.  Every check of the
source runs unconditionally, in source order. -/
def validateScenario (sc : Scenario) : Errors :=
  let es : Errors := []
  let es := if sc.lastYearCost ≤ 0 then setErr es .lastYearCost .mustBePositive else es
  let es := if sc.lastYearFarms ≤ 0 then setErr es .lastYearFarms .mustBePositive else es
  let es := if sc.minNewFarms ≤ 0 then setErr es .minNewFarms .mustBePositive else es
  let es := if sc.maxNewFarms ≤ 0 then setErr es .maxNewFarms .mustBePositive else es
  let es := if sc.maxNewFarms < sc.minNewFarms then setErr es .minNewFarms .minExceedsMax else es
  let es := if sc.trials ≤ 0 ∨ 200000 < sc.trials then setErr es .trials .trialsRange else es
  let es :=
    if 1/2 < |totalShare sc - 100| then
      setErr es .farmTypes (.shareSum (totalShare sc))
    else es
  sc.farmTypes.enum.foldl (fun es p => validateFarmType p.1 p.2 es) es

/-- The boolean the source returns: `Object.keys(newErrors).length === 0`. -/
def scenarioOk (sc : Scenario) : Bool := validateScenario sc = []

/-! ## Simulation engine (`runFarmTypeSimulation`, source lines 111–156) -/

/-- Source: `avgPriceLastYear = scenario.lastYearCost / scenario.lastYearFarms`. -/
def avgPriceLastYear (sc : Scenario) : ℚ := sc.lastYearCost / sc.lastYearFarms

/-- Shares normalized to probabilities: `shares.map(s => s / total)`. -/
def probs (sc : Scenario) : List ℚ :=
  (sc.farmTypes.map (·.sharePercent)).map (· / totalShare sc)

/-- Source: `minMult = farmTypes.map(ft => 1.0 - ft.maxDiscount / 100)`. -/
def minMult (sc : Scenario) : List ℚ :=
  sc.farmTypes.map (fun ft => 1 - ft.maxDiscount / 100)

/-- Source: `maxMult = farmTypes.map(ft => 1.0 - ft.minDiscount / 100)`. -/
def maxMult (sc : Scenario) : List ℚ :=
  sc.farmTypes.map (fun ft => 1 - ft.minDiscount / 100)

/-- The inner farm loop, accumulating `thisYearCostPartial` exactly as the
source does: one `choice` draw, one `uniform` draw, then
`+= multiplier * avgPriceLastYear`. -/
def farmLoop (sc : Scenario) : ℕ → ℚ → ℕ → ℚ × ℕ
  | 0, acc, s => (acc, s)
  | j + 1, acc, s =>
      let c := choice s sc.farmTypes.length (probs sc)
      let u := uniform c.2 ((minMult sc).getD c.1 0) ((maxMult sc).getD c.1 0)
      farmLoop sc j (acc + u.1 * avgPriceLastYear sc) u.2

/-- The same loop, returning the list of drawn multipliers instead of the
running sum (used to state what the accumulator computes). -/
def farmMults (sc : Scenario) : ℕ → ℕ → List ℚ × ℕ
  | 0, s => ([], s)
  | j + 1, s =>
      let c := choice s sc.farmTypes.length (probs sc)
      let u := uniform c.2 ((minMult sc).getD c.1 0) ((maxMult sc).getD c.1 0)
      let rest := farmMults sc j u.2
      (u.1 :: rest.1, rest.2)

/-- One trial: draw `nFarms`, run the farm loop from `0`, scale by
`lastYearFarms / nFarms`, and record `lastYearCost - thisYearScaledCost`. -/
def runTrial (sc : Scenario) (s : ℕ) : ℚ × ℕ :=
  let d := integers s sc.minNewFarms sc.maxNewFarms
  let f := farmLoop sc d.1.toNat 0 d.2
  (sc.lastYearCost - f.1 * (sc.lastYearFarms / (d.1 : ℚ)), f.2)

/-- The trial loop, pushing one savings value per trial. -/
def trialsLoop (sc : Scenario) : ℕ → ℕ → List ℚ × ℕ
  | 0, s => ([], s)
  | i + 1, s =>
      let t := runTrial sc s
      let rest := trialsLoop sc i t.2
      (t.1 :: rest.1, rest.2)

/-! ## Statistics reducer (source lines 141–156) -/

/-- Source `Math.round`: round half up (`Math.round(x) = Math.floor(x + 0.5)` for the
finite values that occur here). -/
def jsRound (q : ℚ) : ℤ := ⌊q + 1/2⌋

/-- Source `[...savings].sort((a, b) => a - b)`: an ascending sorted copy. -/
def sortedQ (l : List ℚ) : List ℚ := l.mergeSort (fun a b => a ≤ b)

/-- Source `Math.min(...savings)`, for the non-empty lists produced by a run (the `[]`
case returns a placeholder; a validated run has `trials ≥ 1`). -/
def listMin : List ℚ → ℚ
  | [] => 0
  | x :: xs => xs.foldl min x

/-- Source `Math.max(...savings)`, as `listMin`. -/
def listMax : List ℚ → ℚ
  | [] => 0
  | x :: xs => xs.foldl max x

/-- A JavaScript division whose denominator may be `0` on a legal input:
`none` models the non-finite IEEE result (for the variance, `0 / 0 = NaN` at
`savings.length == 1`). -/
def jsdiv (a b : ℚ) : Option ℚ := if b = 0 then none else some (a / b)

/-- The `stats` object.  `variance?` holds the value whose square root the
source stores as `std` (so `std = 0` iff `variance? = some 0`, and `std` is
`NaN` iff `variance? = none`). -/
structure Stats where
  mean : ℚ
  median : ℚ
  variance? : Option ℚ
  min : ℚ
  max : ℚ
  p10 : ℚ
  p90 : ℚ
  probPositive : ℚ
deriving DecidableEq

/-- Source `std = Math.sqrt(variance)`: `NaN` (here `none`) when the variance is. -/
noncomputable def Stats.std? (st : Stats) : Option ℝ :=
  st.variance?.map (fun q => Real.sqrt (q : ℝ))

/-- The statistics block of `runFarmTypeSimulation` (source lines 141–150).
The percentile indexes `Math.floor(n * 0.1)` and `Math.floor(n * 0.9)` are
written with exact rationals; for every `n ≤ 200000` the double-precision
products floor to the same integers. -/
def runStats (savings : List ℚ) : Stats :=
  let n := savings.length
  let sorted := sortedQ savings
  let mean := savings.sum / (n : ℚ)
  { mean := mean
    median := sorted.getD (n / 2) 0
    variance? := jsdiv ((savings.map (fun v => (v - mean) ^ 2)).sum) ((n : ℚ) - 1)
    min := listMin savings
    max := listMax savings
    p10 := sorted.getD (⌊(n : ℚ) * (1/10)⌋).toNat 0
    p90 := sorted.getD (⌊(n : ℚ) * (9/10)⌋).toNat 0
    probPositive := ((savings.filter (fun v => 0 < v)).length : ℚ) / (n : ℚ) }

/-- The result object `{ stats, savings }`. -/
structure SimResult where
  stats : Stats
  savings : List ℚ
deriving DecidableEq

/-- Source `runFarmTypeSimulation`: seeds the RNG with the constant `42`, runs the
trial loop, and reduces.  `ambient` is the ambient randomness `createRNG`
would fall back to were its seed falsy; a seed of `42` never uses it. -/
def runFarmTypeSimulation (sc : Scenario) (ambient : ℕ) : SimResult :=
  let savings := (trialsLoop sc sc.trials.toNat (initState (some 42) ambient)).1
  { stats := runStats savings, savings := savings }

/-! ## Histogram (`createHistogramData`, source lines 159–175) -/

/-- Source `Math.min(Math.floor((v - min) / binWidth), numBins - 1)`, for a non-zero
width. -/
def binIndex (mn w v : ℚ) : ℕ := Nat.min (⌊(v - mn) / w⌋).toNat 39

/-- The tally loop.  With `w = 0` the source computes `(v - min) / 0` which is
`0 / 0 = NaN` (every value then equals `min`); `bins[NaN]++` touches none of
the 40 numeric slots, so no bin is incremented. -/
def histBins (mn w : ℚ) (savings : List ℚ) : List ℕ :=
  savings.foldl
    (fun bins v =>
      if w = 0 then bins
      else bins.set (binIndex mn w v) (bins.getD (binIndex mn w v) 0 + 1))
    (List.replicate 40 0)

/-- Source `createHistogramData`: 40 bins over `[min, max]`, each entry
`{ savings: Math.round(min + i * binWidth), count: bins[i] }`. -/
def createHistogramData (savings : List ℚ) : List (ℤ × ℕ) :=
  let mn := listMin savings
  let mx := listMax savings
  let binWidth := (mx - mn) / 40
  let bins := histBins mn binWidth savings
  (List.range 40).map (fun (i : ℕ) => (jsRound (mn + (i : ℚ) * binWidth), bins.getD i 0))

/-- The RNG state after `i` complete trials of the loop, starting at `s`. -/
def stateAfterTrials (sc : Scenario) (s : ℕ) : ℕ → ℕ
  | 0 => s
  | i + 1 => (runTrial sc (stateAfterTrials sc s i)).2

/-- The state trial `i` of a seeded run starts from (the run seeds with 42). -/
def trialState (sc : Scenario) (i : ℕ) : ℕ := stateAfterTrials sc 42 i

/-- The farm count trial `i` of a seeded run draws. -/
def trialNFarms (sc : Scenario) (i : ℕ) : ℤ :=
  (integers (trialState sc i) sc.minNewFarms sc.maxNewFarms).1

/-- The multipliers trial `i` of a seeded run draws, one per farm. -/
def trialMultipliers (sc : Scenario) (i : ℕ) : List ℚ :=
  (farmMults sc (trialNFarms sc i).toNat (step (trialState sc i))).1

/-- A small valid scenario (used to instantiate universally quantified
theorems at a concrete input). -/
def simpleScenario : Scenario :=
  { lastYearCost := 100, lastYearFarms := 2, minNewFarms := 1,
    maxNewFarms := 1, trials := 2,
    farmTypes := [{ sharePercent := 100, minDiscount := 10, maxDiscount := 10 }] }

/-- A valid scenario with `trials = 1` (a legal, degenerate input). -/
def oneTrialScenario : Scenario :=
  { lastYearCost := 100, lastYearFarms := 2, minNewFarms := 1,
    maxNewFarms := 1, trials := 1,
    farmTypes := [{ sharePercent := 100, minDiscount := 0, maxDiscount := 0 }] }

/-- The scenario named by C8: one farm type at 100% share with
`minDiscount = maxDiscount = 10`, `minNewFarms = maxNewFarms = 30`. -/
def claim8Scenario : Scenario :=
  { lastYearCost := 1000000, lastYearFarms := 30, minNewFarms := 30,
    maxNewFarms := 30, trials := 1000,
    farmTypes := [{ sharePercent := 100, minDiscount := 10, maxDiscount := 10 }] }

/-! ## Mixture sampler (spec §4.3; not present in `src/`) -/

/-- Modelled from the spec: §4.3's "two modes, selectable per scenario".  The
source implements only the simple per-type draw, so the mode switch and the
mixture sampler are modelled from the spec's words. -/
inductive SamplingMode
  | simple
  | mixture

/-- Modelled from the spec: the mixture-mode parameters of §4.3 that the
claim under test exercises — `pFullPrice` (Bernoulli probability of the
full-price group), the fixed full-price multiplier (spec default 1.0), and
`minDiscountMultiplier` (lower edge of the discount component).  The
normal-with-clipping full-price variant and the Beta discount variant are
alternative components the claim does not fix. -/
structure MixtureConfig where
  pFullPrice : ℚ
  fullPriceMultiplier : ℚ
  minDiscountMultiplier : ℚ

/-- Modelled from the spec: one farm's mixture-mode multiplier.  `u` is the
Bernoulli draw and `ud` the discount draw, both unit-interval values from the
RNG (§4.1: `uniformReal` returns a value in `[min, max)`).  With `u <
pFullPrice` the farm lands in the full-price group (fixed multiplier);
otherwise the multiplier is uniform over `[minDiscountMultiplier, 1)`,
i.e. `minDiscountMultiplier + ud * (1 - minDiscountMultiplier)`. -/
def mixtureMultiplier (cfg : MixtureConfig) (u ud : ℚ) : ℚ :=
  if u < cfg.pFullPrice then cfg.fullPriceMultiplier
  else cfg.minDiscountMultiplier + ud * (1 - cfg.minDiscountMultiplier)

/-- Modelled from the spec: the engine's per-farm multiplier draw dispatches
entirely on the scenario's mode flag (§4.4 step 2), without blending. -/
def modeMultiplier (mode : SamplingMode) (lo hi : ℚ) (cfg : MixtureConfig)
    (u ud : ℚ) : ℚ :=
  match mode with
  | .simple => lo + (hi - lo) * u
  | .mixture => mixtureMultiplier cfg u ud

/-- Modelled from the spec: one mixture-mode trial (§4.4 steps 2–5): each of
the `nFarms` farms contributes `multiplier * avgPriceLastYear`, the partial
cost is rescaled by `lastYearFarms / nFarms`, and the trial records
`lastYearCost - thisYearScaledCost`.  `us` is the stream of unit-interval RNG
draws; farm `j` consumes draws `2j` (Bernoulli) and `2j + 1` (discount). -/
def mixtureTrialSavings (lastYearCost lastYearFarms : ℚ) (nFarms : ℕ)
    (cfg : MixtureConfig) (us : ℕ → ℚ) : ℚ :=
  let avg := lastYearCost / lastYearFarms
  let costPartial :=
    ((List.range nFarms).map
      (fun j => mixtureMultiplier cfg (us (2 * j)) (us (2 * j + 1)) * avg)).sum
  lastYearCost - costPartial * (lastYearFarms / (nFarms : ℚ))

/-! ## Binary64 layer

The definitions above denote the source's formulas in exact rational
arithmetic.  The claims whose truth turns on IEEE-754 double rounding are
settled against the following binary64 model, in which every arithmetic
operator of the source rounds its exact result to 53 significant bits,
round to nearest with ties to even.  Overflow, underflow and subnormals
are not modelled: every intermediate value the simulator produces lies far
inside the normal range of doubles. -/

/-- Round a rational to the nearest integer, ties to even. -/
def rhe (q : ℚ) : ℤ :=
  if q - ⌊q⌋ < 1/2 then ⌊q⌋
  else if 1/2 < q - ⌊q⌋ then ⌊q⌋ + 1
  else if 2 ∣ ⌊q⌋ then ⌊q⌋ else ⌊q⌋ + 1

/-- Binary64 rounding of an exact rational: with `2 ^ e ≤ |q| < 2 ^ (e + 1)`
(so `e = Int.log 2 |q|`), round to the nearest multiple of `2 ^ (e - 52)`,
ties to even. -/
def flQ (q : ℚ) : ℚ :=
  if q = 0 then 0
  else if 0 < q then
    (rhe (q / (2 : ℚ) ^ (Int.log 2 q - 52)) : ℚ) * (2 : ℚ) ^ (Int.log 2 q - 52)
  else
    -((rhe (-q / (2 : ℚ) ^ (Int.log 2 (-q) - 52)) : ℚ) *
      (2 : ℚ) ^ (Int.log 2 (-q) - 52))

/-- Round a natural number to the nearest multiple of `2 ^ k`, ties to even
(used for the binary64 rounding of the LCG's integer intermediates). -/
def rndNat (x k : ℕ) : ℕ :=
  if 2 ^ (k - 1) < x % 2 ^ k then (x / 2 ^ k + 1) * 2 ^ k
  else if x % 2 ^ k < 2 ^ (k - 1) then x / 2 ^ k * 2 ^ k
  else if x / 2 ^ k % 2 = 0 then x / 2 ^ k * 2 ^ k else (x / 2 ^ k + 1) * 2 ^ k

/-- Binary64 rounding of a natural number: exact below `2 ^ 53`; the branch
chain covers every magnitude `state * 1103515245 + 12345` can reach
(`< 2 ^ 31 * 1103515245 + 12345 < 2 ^ 62`). -/
def flInt (x : ℕ) : ℕ :=
  if x < 2 ^ 53 then x
  else if x < 2 ^ 54 then rndNat x 1
  else if x < 2 ^ 55 then rndNat x 2
  else if x < 2 ^ 56 then rndNat x 3
  else if x < 2 ^ 57 then rndNat x 4
  else if x < 2 ^ 58 then rndNat x 5
  else if x < 2 ^ 59 then rndNat x 6
  else if x < 2 ^ 60 then rndNat x 7
  else if x < 2 ^ 61 then rndNat x 8
  else if x < 2 ^ 62 then rndNat x 9
  else rndNat x 10

/-- The LCG step as binary64 evaluation performs it: the product and then the
increment round to doubles before the 31-bit mask. -/
def stepJS (s : ℕ) : ℕ := flInt (flInt (s * 1103515245) + 12345) % 2 ^ 31

/-- Source `integers(min, max)` under binary64 evaluation: every operator of
`Math.floor(min + (max - min + 1) * state / 0x7fffffff)` rounds. -/
def integersJS (s : ℕ) (lo hi : ℚ) : ℤ × ℕ :=
  let s' := stepJS s
  (⌊flQ (lo + flQ (flQ (flQ (flQ (hi - lo) + 1) * (s' : ℚ)) / (rngDenom : ℚ)))⌋,
    s')

/-- Source `uniform(min, max)` under binary64 evaluation. -/
def uniformJS (s : ℕ) (lo hi : ℚ) : ℚ × ℕ :=
  let s' := stepJS s
  (flQ (lo + flQ (flQ (hi - lo) * flQ ((s' : ℚ) / (rngDenom : ℚ)))), s')

/-- The cumulative-sum walk of `choice` under binary64 evaluation. -/
def choiceLoopJS (r : ℚ) (n : ℕ) : List ℚ → ℚ → ℕ → ℕ
  | [], _, _ => n - 1
  | p :: ps, cumsum, i =>
      if r < flQ (cumsum + p) then i
      else choiceLoopJS r n ps (flQ (cumsum + p)) (i + 1)

/-- Source `choice(n, probs)` under binary64 evaluation. -/
def choiceJS (s : ℕ) (n : ℕ) (probs : List ℚ) : ℕ × ℕ :=
  let s' := stepJS s
  (choiceLoopJS (flQ ((s' : ℚ) / (rngDenom : ℚ))) n probs 0 0, s')

/-- A `reduce`-style sum whose every partial sum rounds to a double. -/
def jsSum (l : List ℚ) : ℚ := l.foldl (fun acc v => flQ (acc + v)) 0

/-- `totalShare` under binary64 evaluation. -/
def totalShareJS (sc : Scenario) : ℚ := jsSum (sc.farmTypes.map (·.sharePercent))

/-- The normalized probabilities under binary64 evaluation. -/
def probsJS (sc : Scenario) : List ℚ :=
  (sc.farmTypes.map (·.sharePercent)).map (fun x => flQ (x / totalShareJS sc))

/-- `minMult` under binary64 evaluation. -/
def minMultJS (sc : Scenario) : List ℚ :=
  sc.farmTypes.map (fun ft => flQ (1 - flQ (ft.maxDiscount / 100)))

/-- `maxMult` under binary64 evaluation. -/
def maxMultJS (sc : Scenario) : List ℚ :=
  sc.farmTypes.map (fun ft => flQ (1 - flQ (ft.minDiscount / 100)))

/-- `avgPriceLastYear` under binary64 evaluation. -/
def avgPriceJS (sc : Scenario) : ℚ := flQ (sc.lastYearCost / sc.lastYearFarms)

/-- The inner farm loop under binary64 evaluation: the product with the
average price and the running sum both round. -/
def farmLoopJS (sc : Scenario) : ℕ → ℚ → ℕ → ℚ × ℕ
  | 0, acc, s => (acc, s)
  | j + 1, acc, s =>
      let c := choiceJS s sc.farmTypes.length (probsJS sc)
      let u := uniformJS c.2 ((minMultJS sc).getD c.1 0) ((maxMultJS sc).getD c.1 0)
      farmLoopJS sc j (flQ (acc + flQ (u.1 * avgPriceJS sc))) u.2

/-- One trial under binary64 evaluation: draw `nFarms`, run the farm loop
from `0`, scale by `lastYearFarms / nFarms` (both operators round), and
record `lastYearCost - thisYearScaledCost` (rounded). -/
def runTrialJS (sc : Scenario) (s : ℕ) : ℚ × ℕ :=
  let d := integersJS s (sc.minNewFarms : ℚ) (sc.maxNewFarms : ℚ)
  let f := farmLoopJS sc d.1.toNat 0 d.2
  (flQ (sc.lastYearCost - flQ (f.1 * flQ (sc.lastYearFarms / (d.1 : ℚ)))), f.2)

/-- The trial loop under binary64 evaluation. -/
def trialsLoopJS (sc : Scenario) : ℕ → ℕ → List ℚ × ℕ
  | 0, s => ([], s)
  | i + 1, s =>
      let t := runTrialJS sc s
      let rest := trialsLoopJS sc i t.2
      (t.1 :: rest.1, rest.2)

/-- The statistics block under binary64 evaluation.  The mean and variance
accumulate through rounding folds; the selection statistics (median, min,
max, percentiles) pick elements of the sorted list, and their indexes
`Math.floor(n * fl(0.1))`, `Math.floor(n * fl(0.9))` use the rounded
products. -/
def runStatsJS (savings : List ℚ) : Stats :=
  let n := savings.length
  let sorted := sortedQ savings
  let mean := flQ (jsSum savings / (n : ℚ))
  { mean := mean
    median := sorted.getD (n / 2) 0
    variance? :=
      (jsdiv (jsSum (savings.map (fun v => flQ (flQ (v - mean) * flQ (v - mean)))))
        ((n : ℚ) - 1)).map flQ
    min := listMin savings
    max := listMax savings
    p10 := sorted.getD (⌊flQ ((n : ℚ) * flQ (1/10))⌋).toNat 0
    p90 := sorted.getD (⌊flQ ((n : ℚ) * flQ (9/10))⌋).toNat 0
    probPositive := flQ (((savings.filter (fun v => 0 < v)).length : ℚ) / (n : ℚ)) }

/-- `runFarmTypeSimulation` under binary64 evaluation. -/
def runFarmTypeSimulationJS (sc : Scenario) (ambient : ℕ) : SimResult :=
  let savings := (trialsLoopJS sc sc.trials.toNat (initState (some 42) ambient)).1
  { stats := runStatsJS savings, savings := savings }

/-- The double nearest `0.9`: what `1.0 - 10 / 100` evaluates to in binary64
(`0.90000000000000002220…`). -/
def jsMult : ℚ := 8106479329266893 / 2 ^ 53

/-- The common per-trial savings of the C8 scenario under binary64
evaluation: `99999.99999999988` (exactly `858993459199999 / 2 ^ 33`). -/
def claim8JsSavings : ℚ := 858993459199999 / 2 ^ 33

/-- A key of the scenario-level checks, i.e. not one of the per-farm-type
keys the `forEach` loop can write. -/
def ErrKey.scenarioLevel : ErrKey → Prop
  | .lastYearCost | .lastYearFarms | .minNewFarms | .maxNewFarms | .trials
  | .farmTypes => True
  | _ => False

/-- The scenario named by C4: `minNewFarms = 10 > maxNewFarms = 5`,
`trials = 300000 > 200000`, one farm type whose share sums to 80%. -/
def claim4Scenario : Scenario :=
  { lastYearCost := 1000000, lastYearFarms := 30, minNewFarms := 10,
    maxNewFarms := 5, trials := 300000,
    farmTypes := [{ sharePercent := 80, minDiscount := 0, maxDiscount := 0 }] }

/-- A scenario on which two different failed checks report to the same key:
`minNewFarms = 0` fails the positivity check and `0 > maxNewFarms = -1` fails
the ordering check, and both write the `minNewFarms` property. -/
def claim4OverwriteScenario : Scenario :=
  { lastYearCost := 100, lastYearFarms := 1, minNewFarms := 0,
    maxNewFarms := -1, trials := 10,
    farmTypes := [{ sharePercent := 100, minDiscount := 0, maxDiscount := 0 }] }

/-! ## Basic facts about the RNG -/

theorem step_lt (s : ℕ) : step s < 2 ^ 31 :=
  Nat.mod_lt _ (by norm_num)

theorem step_le_rngDenom (s : ℕ) : step s ≤ rngDenom := by
  have h := step_lt s
  unfold rngDenom
  omega

theorem rngDenom_pos : (0 : ℚ) < (rngDenom : ℚ) := by
  norm_num [rngDenom]

/-- The value of `integers` as an offset floor. -/
theorem integers_eq (s : ℕ) (lo hi : ℤ) :
    (integers s lo hi).1 =
      lo + ⌊((hi - lo + 1 : ℤ) : ℚ) * (step s : ℚ) / (rngDenom : ℚ)⌋ := by
  show ⌊(lo : ℚ) + ((hi : ℚ) - (lo : ℚ) + 1) * (step s : ℚ) / (rngDenom : ℚ)⌋ = _
  rw [show ((hi : ℚ) - (lo : ℚ) + 1) = ((hi - lo + 1 : ℤ) : ℚ) by push_cast; ring,
    Int.floor_int_add]

/-! ## Claim theorems: RNG -/

/-- Bounds of `integers`: in `[lo, hi + 1]`, with the overflow value `hi + 1`
hit exactly when the advanced state is `2 ^ 31 - 1`. -/
theorem integers_bounds (s : ℕ) (lo hi : ℤ) (h : lo ≤ hi) :
    lo ≤ (integers s lo hi).1 ∧ (integers s lo hi).1 ≤ hi + 1 ∧
      (step s < rngDenom → (integers s lo hi).1 ≤ hi) ∧
      (step s = rngDenom → (integers s lo hi).1 = hi + 1) := by
  have hD := rngDenom_pos
  have hApos : (0 : ℚ) < ((hi - lo + 1 : ℤ) : ℚ) := by
    exact_mod_cast (by omega : (0 : ℤ) < hi - lo + 1)
  have hfrac0 : (0 : ℚ) ≤ (step s : ℚ) / (rngDenom : ℚ) :=
    div_nonneg (Nat.cast_nonneg _) hD.le
  have hfrac1 : (step s : ℚ) / (rngDenom : ℚ) ≤ 1 :=
    (div_le_one hD).2 (by exact_mod_cast step_le_rngDenom s)
  have hassoc :
      ((hi - lo + 1 : ℤ) : ℚ) * (step s : ℚ) / (rngDenom : ℚ) =
        ((hi - lo + 1 : ℤ) : ℚ) * ((step s : ℚ) / (rngDenom : ℚ)) :=
    mul_div_assoc _ _ _
  refine ⟨?_, ?_, ?_, ?_⟩
  · rw [integers_eq]
    have : (0 : ℤ) ≤ ⌊((hi - lo + 1 : ℤ) : ℚ) * (step s : ℚ) / (rngDenom : ℚ)⌋ := by
      apply Int.floor_nonneg.2
      rw [hassoc]
      exact mul_nonneg hApos.le hfrac0
    omega
  · rw [integers_eq]
    have hle : ((hi - lo + 1 : ℤ) : ℚ) * (step s : ℚ) / (rngDenom : ℚ) ≤
        ((hi - lo + 1 : ℤ) : ℚ) := by
      rw [hassoc]
      exact mul_le_of_le_one_right hApos.le hfrac1
    have h2 : ⌊((hi - lo + 1 : ℤ) : ℚ) * (step s : ℚ) / (rngDenom : ℚ)⌋ ≤ hi - lo + 1 := by
      have := Int.floor_le_floor hle
      rwa [Int.floor_intCast] at this
    omega
  · intro hlt
    rw [integers_eq]
    have hfl : (step s : ℚ) / (rngDenom : ℚ) < 1 := by
      apply (div_lt_one hD).2
      exact_mod_cast hlt
    have hr : ((hi - lo + 1 : ℤ) : ℚ) * (step s : ℚ) / (rngDenom : ℚ) <
        ((hi - lo + 1 : ℤ) : ℚ) := by
      rw [hassoc]
      exact mul_lt_of_lt_one_right hApos hfl
    have h2 : ⌊((hi - lo + 1 : ℤ) : ℚ) * (step s : ℚ) / (rngDenom : ℚ)⌋ < hi - lo + 1 :=
      Int.floor_lt.2 hr
    omega
  · intro heq
    rw [integers_eq]
    have hr : ((hi - lo + 1 : ℤ) : ℚ) * (step s : ℚ) / (rngDenom : ℚ) =
        ((hi - lo + 1 : ℤ) : ℚ) := by
      rw [hassoc, heq, div_self hD.ne.symm, mul_one]
    rw [hr, Int.floor_intCast]
    omega

/-- C2: the engine is deterministic.  `runFarmTypeSimulation` seeds a fresh
RNG with the constant `42` on every call; since `42` is truthy, the ambient
`Math.random` fallback of `createRNG` is never consulted, so two runs on the
same scenario agree on the whole result object, in particular bit-for-bit on
the `savings` sequence. -/
theorem claim2_simulate_deterministic (sc : Scenario) (ambient₁ ambient₂ : ℕ) :
    runFarmTypeSimulation sc ambient₁ = runFarmTypeSimulation sc ambient₂ := by
  unfold runFarmTypeSimulation initState
  norm_num

/-! ## Claim theorems: order statistics -/

/-- Index `Math.floor(n * 0.1)` over exact rationals is `n / 10`. -/
theorem floor_mul_tenth (n : ℕ) : (⌊(n : ℚ) * (1/10)⌋).toNat = n / 10 := by
  rw [mul_one_div, show ((10 : ℚ)) = ((10 : ℕ) : ℚ) by norm_num, Int.floor_toNat,
    Nat.floor_div_nat]
  simp

/-- Index `Math.floor(n * 0.9)` over exact rationals is `9 * n / 10`. -/
theorem floor_mul_nine_tenths (n : ℕ) : (⌊(n : ℚ) * (9/10)⌋).toNat = 9 * n / 10 := by
  rw [show (n : ℚ) * (9/10) = ((9 * n : ℕ) : ℚ) / ((10 : ℕ) : ℚ) by push_cast; ring,
    Int.floor_toNat, Nat.floor_div_nat]
  rw [Nat.floor_natCast]

/-- C5: the reducer computes order statistics by exact index on a sorted copy:
`median` is the element at index `⌊n/2⌋` (the upper median for even `n`),
`p10` at `⌊n/10⌋`, `p90` at `⌊9n/10⌋`; for `[10, 20, 30, 40]` the median is
`30`, not the averaged `25`. -/
theorem claim5_order_statistics (l : List ℚ) (h : l ≠ []) :
    (runStats l).median = (sortedQ l).getD (l.length / 2) 0 ∧
      (runStats l).p10 = (sortedQ l).getD (l.length / 10) 0 ∧
      (runStats l).p90 = (sortedQ l).getD (9 * l.length / 10) 0 ∧
      (runStats [(10 : ℚ), 20, 30, 40]).median = 30 ∧
      (runStats [(10 : ℚ), 20, 30, 40]).median ≠ 25 := by
  have hs : sortedQ [(10 : ℚ), 20, 30, 40] = [10, 20, 30, 40] := by
    apply List.mergeSort_of_sorted
    norm_num [List.pairwise_cons]
  have hmed : (runStats [(10 : ℚ), 20, 30, 40]).median = 30 := by
    show (sortedQ [(10 : ℚ), 20, 30, 40]).getD ([(10 : ℚ), 20, 30, 40].length / 2) 0 = 30
    rw [hs]
    norm_num
  refine ⟨rfl, ?_, ?_, hmed, by rw [hmed]; norm_num⟩
  · show (sortedQ l).getD (⌊(l.length : ℚ) * (1/10)⌋).toNat 0 = _
    rw [floor_mul_tenth]
  · show (sortedQ l).getD (⌊(l.length : ℚ) * (9/10)⌋).toNat 0 = _
    rw [floor_mul_nine_tenths]

theorem claim5_order_statistics_witness :
    ([(10 : ℚ), 20, 30, 40] ≠ []) ∧ (runStats [(10 : ℚ), 20, 30, 40]).median = 30 :=
  ⟨by simp, (claim5_order_statistics [10, 20, 30, 40] (by simp)).2.2.2.1⟩

/-! ## Claim theorems: degenerate histogram -/

theorem foldl_min_const (c : ℚ) (m : ℕ) :
    List.foldl min c (List.replicate m c) = c := by
  induction m with
  | zero => rfl
  | succ m ih => rw [List.replicate_succ, List.foldl_cons, min_self]; exact ih

theorem foldl_max_const (c : ℚ) (m : ℕ) :
    List.foldl max c (List.replicate m c) = c := by
  induction m with
  | zero => rfl
  | succ m ih => rw [List.replicate_succ, List.foldl_cons, max_self]; exact ih

theorem histBins_zero_width (mn : ℚ) (l : List ℚ) :
    histBins mn 0 l = List.replicate 40 0 := by
  unfold histBins
  induction l with
  | nil => rfl
  | cons x xs ih => simpa using ih

theorem getD_replicate_zero (i : ℕ) : (List.replicate 40 (0 : ℕ)).getD i 0 = 0 := by
  simp only [List.getD, List.get?_eq_getElem?, List.getElem?_replicate]
  split <;> rfl

/-- C7 (code bug): when all savings are identical the bin width is `0`, the
source has no special case, every per-value bin index is the non-finite
`(v - min) / 0` (`0 / 0 = NaN` in IEEE arithmetic, so `bins[NaN]++` updates no
numeric slot), and the returned histogram holds 40 bins whose counts sum to
`0` instead of to the number of trials — all trial data is silently dropped.
Shown for every constant savings sequence and for the input `[5, 5, 5]`
(3 trials, total histogram count 0). -/
theorem claim7_degenerate_histogram_drops_counts :
    (∀ (m : ℕ) (c : ℚ),
        ((createHistogramData (List.replicate (m + 1) c)).map Prod.snd).sum = 0 ∧
          (createHistogramData (List.replicate (m + 1) c)).length = 40) ∧
      ((createHistogramData [(5 : ℚ), 5, 5]).map Prod.snd).sum = 0 ∧
      ([(5 : ℚ), 5, 5]).length = 3 := by
  have key : ∀ (l : List ℚ), listMin l = listMax l →
      ((createHistogramData l).map Prod.snd).sum = 0 ∧
        (createHistogramData l).length = 40 := by
    intro l hl
    simp only [createHistogramData]
    rw [← hl, sub_self, zero_div, histBins_zero_width]
    constructor
    · rw [List.map_map]
      apply List.sum_eq_zero
      intro x hx
      rw [List.mem_map] at hx
      obtain ⟨i, _, hi⟩ := hx
      rw [← hi]
      exact getD_replicate_zero i
    · simp
  have hconst : ∀ (m : ℕ) (c : ℚ),
      listMin (List.replicate (m + 1) c) = listMax (List.replicate (m + 1) c) := by
    intro m c
    show List.foldl min c (List.replicate m c) = List.foldl max c (List.replicate m c)
    rw [foldl_min_const, foldl_max_const]
  have h5 := key [(5 : ℚ), 5, 5] (by
    show List.foldl min 5 [5, 5] = List.foldl max 5 [5, 5]
    norm_num)
  exact ⟨fun m c => key _ (hconst m c), h5.1, rfl⟩

/-! ## Facts about the modelled error object -/

theorem getErr_cons (p : ErrKey × ErrMsg) (es : Errors) (k : ErrKey) :
    getErr (p :: es) k = if p.1 = k then some p.2 else getErr es k := by
  cases p
  rfl

theorem getErr_map_set (es : Errors) (k : ErrKey) (v : ErrMsg)
    (h : (getErr es k).isSome = true) :
    getErr (es.map (fun p => if p.1 = k then (k, v) else p)) k = some v := by
  induction es with
  | nil => simp [getErr] at h
  | cons p es ih =>
      by_cases hp : p.1 = k
      · simp [getErr_cons, hp]
      · rw [getErr_cons] at h
        rw [if_neg hp] at h
        simp only [List.map_cons, if_neg hp, getErr_cons, hp, if_false]
        exact ih h

theorem getErr_map_set_ne (es : Errors) (k k' : ErrKey) (v : ErrMsg) (h : k' ≠ k) :
    getErr (es.map (fun p => if p.1 = k' then (k', v) else p)) k = getErr es k := by
  induction es with
  | nil => rfl
  | cons p es ih =>
      by_cases hp : p.1 = k'
      · simp only [List.map_cons, if_pos hp, getErr_cons]
        rw [if_neg h, if_neg (hp ▸ h)]
        exact ih
      · simp only [List.map_cons, if_neg hp, getErr_cons]
        by_cases hk : p.1 = k
        · rw [if_pos hk, if_pos hk]
        · rw [if_neg hk, if_neg hk]
          exact ih

theorem getErr_append_none (es fs : Errors) (k : ErrKey) (h : getErr es k = none) :
    getErr (es ++ fs) k = getErr fs k := by
  induction es with
  | nil => rfl
  | cons p es ih =>
      rw [getErr_cons] at h
      by_cases hp : p.1 = k
      · rw [if_pos hp] at h
        exact absurd h (by simp)
      · rw [if_neg hp] at h
        rw [List.cons_append, getErr_cons, if_neg hp]
        exact ih h

theorem getErr_append_some (es fs : Errors) (k : ErrKey)
    (h : (getErr es k).isSome = true) :
    getErr (es ++ fs) k = getErr es k := by
  induction es with
  | nil => simp [getErr] at h
  | cons p es ih =>
      rw [getErr_cons] at h
      rw [List.cons_append, getErr_cons]
      by_cases hp : p.1 = k
      · rw [if_pos hp, getErr_cons, if_pos hp]
      · rw [if_neg hp] at h ⊢
        rw [getErr_cons, if_neg hp]
        exact ih h

/-- Writing a key makes it readable. -/
theorem getErr_setErr_self (es : Errors) (k : ErrKey) (v : ErrMsg) :
    getErr (setErr es k v) k = some v := by
  unfold setErr
  by_cases h : (getErr es k).isSome = true
  · rw [if_pos h]
    exact getErr_map_set es k v h
  · rw [if_neg h]
    rw [getErr_append_none es _ k (Option.not_isSome_iff_eq_none.mp (by simpa using h))]
    simp [getErr_cons]

/-- Writing one key leaves every other key unchanged. -/
theorem getErr_setErr_ne (es : Errors) (k k' : ErrKey) (v : ErrMsg) (h : k' ≠ k) :
    getErr (setErr es k' v) k = getErr es k := by
  unfold setErr
  by_cases hs : (getErr es k').isSome = true
  · rw [if_pos hs]
    exact getErr_map_set_ne es k k' v h
  · rw [if_neg hs]
    cases hk : getErr es k with
    | none =>
        rw [getErr_append_none es _ k hk, getErr_cons]
        simp [h, getErr]
    | some w =>
        rw [getErr_append_some es _ k (by simp [hk]), hk]

/-- Writing any key never erases another key's presence. -/
theorem getErr_setErr_isSome (es : Errors) (k k' : ErrKey) (v : ErrMsg)
    (h : (getErr es k).isSome = true) :
    (getErr (setErr es k' v) k).isSome = true := by
  by_cases hk : k' = k
  · subst hk
    rw [getErr_setErr_self]
    rfl
  · rw [getErr_setErr_ne es k k' v hk]
    exact h

/-- The per-farm-type checks leave every scenario-level key unchanged. -/
theorem getErr_validateFarmType (idx : ℕ) (ft : FarmType) (es : Errors)
    (k : ErrKey) (hk : k.scenarioLevel) :
    getErr (validateFarmType idx ft es) k = getErr es k := by
  have h1 : ErrKey.farmTypeShare idx ≠ k := by
    cases k <;> simp [ErrKey.scenarioLevel] at hk ⊢
  have h2 : ErrKey.farmTypeMinDiscount idx ≠ k := by
    cases k <;> simp [ErrKey.scenarioLevel] at hk ⊢
  have h3 : ErrKey.farmTypeMaxDiscount idx ≠ k := by
    cases k <;> simp [ErrKey.scenarioLevel] at hk ⊢
  have h4 : ErrKey.farmTypeDiscount idx ≠ k := by
    cases k <;> simp [ErrKey.scenarioLevel] at hk ⊢
  unfold validateFarmType
  by_cases c1 : ft.sharePercent < 0 ∨ 100 < ft.sharePercent <;>
    by_cases c2 : ft.minDiscount < 0 ∨ 100 < ft.minDiscount <;>
      by_cases c3 : ft.maxDiscount < 0 ∨ 100 < ft.maxDiscount <;>
        by_cases c4 : ft.maxDiscount < ft.minDiscount <;>
          simp only [c1, c2, c3, c4, if_true, if_false, ite_true, ite_false] <;>
            simp [getErr_setErr_ne _ _ _ _ h1, getErr_setErr_ne _ _ _ _ h2,
              getErr_setErr_ne _ _ _ _ h3, getErr_setErr_ne _ _ _ _ h4]

/-- The whole `forEach` loop leaves every scenario-level key unchanged. -/
theorem getErr_foldl_validateFarmType (l : List (ℕ × FarmType)) (es : Errors)
    (k : ErrKey) (hk : k.scenarioLevel) :
    getErr (l.foldl (fun es p => validateFarmType p.1 p.2 es) es) k = getErr es k := by
  induction l generalizing es with
  | nil => rfl
  | cons p l ih =>
      rw [List.foldl_cons, ih]
      exact getErr_validateFarmType p.1 p.2 es k hk

/-- If `min > max`, the validator reports it under the `minNewFarms` key (this
check is the last writer of that key, so the entry survives). -/
theorem validate_minmax (sc : Scenario) (h : sc.maxNewFarms < sc.minNewFarms) :
    getErr (validateScenario sc) .minNewFarms = some .minExceedsMax := by
  unfold validateScenario
  rw [getErr_foldl_validateFarmType _ _ ErrKey.minNewFarms trivial]
  by_cases c7 : 1/2 < |totalShare sc - 100| <;>
    by_cases c6 : sc.trials ≤ 0 ∨ 200000 < sc.trials <;>
      simp only [c6, c7, h, if_true, if_false, ite_true, ite_false,
        getErr_setErr_ne _ _ _ _ (show ErrKey.farmTypes ≠ .minNewFarms by simp),
        getErr_setErr_ne _ _ _ _ (show ErrKey.trials ≠ .minNewFarms by simp),
        getErr_setErr_self]

/-- If `trials` is out of `(0, 200000]`, the validator reports it under the
`trials` key, regardless of every other check. -/
theorem validate_trials (sc : Scenario) (h : sc.trials ≤ 0 ∨ 200000 < sc.trials) :
    getErr (validateScenario sc) .trials = some .trialsRange := by
  unfold validateScenario
  rw [getErr_foldl_validateFarmType _ _ ErrKey.trials trivial]
  by_cases c7 : 1/2 < |totalShare sc - 100| <;>
    simp only [c7, h, if_true, if_false, ite_true, ite_false,
      getErr_setErr_ne _ _ _ _ (show ErrKey.farmTypes ≠ .trials by simp),
      getErr_setErr_self]

/-- If the share sum misses 100 by more than 0.5, the validator reports it
under the `farmTypes` key, regardless of every other check. -/
theorem validate_shareSum (sc : Scenario) (h : 1/2 < |totalShare sc - 100|) :
    getErr (validateScenario sc) .farmTypes = some (.shareSum (totalShare sc)) := by
  unfold validateScenario
  rw [getErr_foldl_validateFarmType _ _ ErrKey.farmTypes trivial]
  simp only [h, if_true, ite_true, getErr_setErr_self]

/-- Conditional writes never erase a key's presence. -/
theorem getErr_ite_isSome (c : Prop) [Decidable c] (es : Errors) (k k' : ErrKey)
    (v : ErrMsg) (h : (getErr es k).isSome = true) :
    (getErr (if c then setErr es k' v else es) k).isSome = true := by
  split
  · exact getErr_setErr_isSome es k k' v h
  · exact h

/-- If `minNewFarms ≤ 0`, the `minNewFarms` key carries some error (possibly
the min-exceeds-max message, which overwrites the positivity message). -/
theorem validate_minpos_isSome (sc : Scenario) (h : sc.minNewFarms ≤ 0) :
    (getErr (validateScenario sc) .minNewFarms).isSome = true := by
  unfold validateScenario
  rw [getErr_foldl_validateFarmType _ _ ErrKey.minNewFarms trivial]
  apply getErr_ite_isSome
  apply getErr_ite_isSome
  apply getErr_ite_isSome
  apply getErr_ite_isSome
  rw [if_pos h, getErr_setErr_self]
  rfl

/-- A scenario that passes validation has a positive `minNewFarms`,
`minNewFarms ≤ maxNewFarms`, and `trials ∈ (0, 200000]`. -/
theorem scenarioOk_bounds (sc : Scenario) (h : scenarioOk sc = true) :
    0 < sc.minNewFarms ∧ sc.minNewFarms ≤ sc.maxNewFarms ∧
      0 < sc.trials ∧ sc.trials ≤ 200000 := by
  have he : validateScenario sc = [] := by simpa [scenarioOk] using h
  refine ⟨?_, ?_, ?_, ?_⟩
  · by_contra hc
    push_neg at hc
    have := validate_minpos_isSome sc hc
    rw [he] at this
    simp [getErr] at this
  · by_contra hc
    push_neg at hc
    have := validate_minmax sc hc
    rw [he] at this
    simp [getErr] at this
  · by_contra hc
    push_neg at hc
    have := validate_trials sc (Or.inl hc)
    rw [he] at this
    simp [getErr] at this
  · by_contra hc
    push_neg at hc
    have := validate_trials sc (Or.inr hc)
    rw [he] at this
    simp [getErr] at this

/-! ## Claim theorems: validator -/

/-- C4 (counterexample): the error mapping does NOT contain an entry for
every applicable failed check.  On `claim4OverwriteScenario` the
`minNewFarms > 0` check fails, yet its entry
`(minNewFarms, "Must be greater than 0")` is absent from the result: the
later `min > max` check assigned the same object property and overwrote it. -/
theorem claim4_validator_counterexample :
    claim4OverwriteScenario.minNewFarms ≤ 0 ∧
      (ErrKey.minNewFarms, ErrMsg.mustBePositive) ∉
        validateScenario claim4OverwriteScenario := by
  have hv : validateScenario claim4OverwriteScenario =
      [(.minNewFarms, .minExceedsMax), (.maxNewFarms, .mustBePositive)] := by
    norm_num +decide [validateScenario, validateFarmType, setErr, getErr,
      totalShare, claim4OverwriteScenario, List.enum]
  exact ⟨by decide, by rw [hv]; simp⟩

/-- C4 (amended): every check runs with no short-circuit and each failed
check writes its error under its field key, but the mapping is keyed by field
and a later check on the same field overwrites an earlier message (the
`minNewFarms` positivity message is lost when `min > max` also fails).  In
particular the three checks named by the claim always report independently,
and the named scenario (`min = 10 > max = 5`, `trials = 300000`, shares
summing to 80%) yields at least three simultaneous error entries. -/
theorem claim4_validator_amended (sc : Scenario) :
    (sc.maxNewFarms < sc.minNewFarms →
        getErr (validateScenario sc) .minNewFarms = some .minExceedsMax) ∧
      ((sc.trials ≤ 0 ∨ 200000 < sc.trials) →
        getErr (validateScenario sc) .trials = some .trialsRange) ∧
      (1/2 < |totalShare sc - 100| →
        getErr (validateScenario sc) .farmTypes = some (.shareSum (totalShare sc))) ∧
      3 ≤ (validateScenario claim4Scenario).length ∧
      getErr (validateScenario claim4Scenario) .minNewFarms = some .minExceedsMax ∧
      getErr (validateScenario claim4Scenario) .trials = some .trialsRange ∧
      getErr (validateScenario claim4Scenario) .farmTypes = some (.shareSum 80) := by
  have hv : validateScenario claim4Scenario =
      [(.minNewFarms, .minExceedsMax), (.trials, .trialsRange),
        (.farmTypes, .shareSum 80)] := by
    norm_num +decide [validateScenario, validateFarmType, setErr, getErr,
      totalShare, claim4Scenario, List.enum]
  refine ⟨validate_minmax sc, validate_trials sc, validate_shareSum sc, ?_, ?_, ?_, ?_⟩ <;>
    rw [hv] <;> simp [getErr_cons, getErr]

theorem claim4_validator_amended_witness :
    getErr (validateScenario claim4Scenario) .minNewFarms = some .minExceedsMax ∧
      getErr (validateScenario claim4Scenario) .trials = some .trialsRange :=
  ⟨(claim4_validator_amended claim4Scenario).1 (by decide),
    (claim4_validator_amended claim4Scenario).2.1 (by decide)⟩

/-! ## Facts about the engine loops -/

theorem trialsLoop_length (sc : Scenario) (n s : ℕ) :
    (trialsLoop sc n s).1.length = n := by
  induction n generalizing s with
  | zero => rfl
  | succ n ih => simp [trialsLoop, ih]

theorem stateAfterTrials_shift (sc : Scenario) (s : ℕ) (i : ℕ) :
    stateAfterTrials sc (runTrial sc s).2 i = stateAfterTrials sc s (i + 1) := by
  induction i with
  | zero => rfl
  | succ i ih =>
      show (runTrial sc (stateAfterTrials sc (runTrial sc s).2 i)).2 = _
      rw [ih]
      rfl

theorem trialsLoop_getD (sc : Scenario) (n s i : ℕ) (hi : i < n) :
    (trialsLoop sc n s).1.getD i 0 = (runTrial sc (stateAfterTrials sc s i)).1 := by
  induction n generalizing s i with
  | zero => omega
  | succ n ih =>
      cases i with
      | zero => rfl
      | succ i =>
          show (trialsLoop sc n (runTrial sc s).2).1.getD i 0 = _
          rw [ih _ _ (by omega), stateAfterTrials_shift]

theorem farmMults_length (sc : Scenario) (j s : ℕ) :
    (farmMults sc j s).1.length = j := by
  induction j generalizing s with
  | zero => rfl
  | succ j ih => simp [farmMults, ih]

/-- The accumulator of the inner loop computes the sum of
`multiplier * avgPriceLastYear` over the drawn multipliers. -/
theorem farmLoop_eq_farmMults (sc : Scenario) (j : ℕ) (acc : ℚ) (s : ℕ) :
    farmLoop sc j acc s =
      (acc + ((farmMults sc j s).1.map (fun m => m * avgPriceLastYear sc)).sum,
        (farmMults sc j s).2) := by
  induction j generalizing acc s with
  | zero => simp [farmLoop, farmMults]
  | succ j ih =>
      show farmLoop sc j _ _ = _
      rw [ih]
      simp [farmMults, add_assoc]

/-! ## Claim theorems: engine -/

/-- C1: on a validated scenario the engine returns one savings value per
trial — length exactly `trials` — and trial `i` records
`savings[i] = lastYearCost - thisYearScaledCost` where `thisYearScaledCost`
is the sum of `multiplier * avgPriceLastYear` over that trial's `nFarms`
drawn multipliers, rescaled by `lastYearFarms / nFarms`, with
`avgPriceLastYear = lastYearCost / lastYearFarms`. -/
theorem claim1_simulate_savings_formula (sc : Scenario) (ambient : ℕ)
    (h : scenarioOk sc = true) :
    (((runFarmTypeSimulation sc ambient).savings.length : ℤ) = sc.trials) ∧
      ∀ i, i < (runFarmTypeSimulation sc ambient).savings.length →
        (trialMultipliers sc i).length = (trialNFarms sc i).toNat ∧
          (runFarmTypeSimulation sc ambient).savings.getD i 0 =
            sc.lastYearCost -
              ((trialMultipliers sc i).map
                  (fun m => m * (sc.lastYearCost / sc.lastYearFarms))).sum *
                (sc.lastYearFarms / ((trialNFarms sc i) : ℚ)) := by
  obtain ⟨-, -, htrials, -⟩ := scenarioOk_bounds sc h
  have hsav : (runFarmTypeSimulation sc ambient).savings =
      (trialsLoop sc sc.trials.toNat 42).1 := rfl
  constructor
  · rw [hsav, trialsLoop_length]
    omega
  · intro i hi
    rw [hsav, trialsLoop_length] at hi
    constructor
    · exact farmMults_length sc _ _
    · rw [hsav, trialsLoop_getD sc _ _ _ hi]
      show (runTrial sc (trialState sc i)).1 = _
      simp only [runTrial]
      rw [farmLoop_eq_farmMults, zero_add]
      rfl

theorem claim1_simulate_savings_formula_witness :
    ((runFarmTypeSimulation simpleScenario 0).savings.length : ℤ) =
      simpleScenario.trials :=
  (claim1_simulate_savings_formula simpleScenario 0
    (by simp +decide [scenarioOk, validateScenario, validateFarmType, setErr,
      getErr, totalShare, simpleScenario])).1

theorem sortedQ_singleton (v : ℚ) : sortedQ [v] = [v] := by
  simp [sortedQ]

/-- C10: with `trials = 1` (a legal input) the engine completes and returns a
fully populated result — a one-element savings sequence whose value feeds
every order statistic and extremum — but the variance is the IEEE division
`0 / 0` (denominator `n - 1 = 0`), so `std = Math.sqrt(variance)` is `NaN`
(`none` in the model): the source applies no special-case policy at
`trials = 1`. -/
theorem claim10_trials_one_std_nan (sc : Scenario) (ambient : ℕ)
    (h : scenarioOk sc = true) (h1 : sc.trials = 1) :
    (runFarmTypeSimulation sc ambient).savings = [(runTrial sc 42).1] ∧
      (runFarmTypeSimulation sc ambient).stats.mean = (runTrial sc 42).1 ∧
      (runFarmTypeSimulation sc ambient).stats.median = (runTrial sc 42).1 ∧
      (runFarmTypeSimulation sc ambient).stats.p10 = (runTrial sc 42).1 ∧
      (runFarmTypeSimulation sc ambient).stats.p90 = (runTrial sc 42).1 ∧
      (runFarmTypeSimulation sc ambient).stats.min = (runTrial sc 42).1 ∧
      (runFarmTypeSimulation sc ambient).stats.max = (runTrial sc 42).1 ∧
      (runFarmTypeSimulation sc ambient).stats.variance? = none ∧
      (runFarmTypeSimulation sc ambient).stats.std? = none := by
  have hsav : (runFarmTypeSimulation sc ambient).savings = [(runTrial sc 42).1] := by
    show (trialsLoop sc sc.trials.toNat 42).1 = _
    rw [h1]
    rfl
  have hstats : (runFarmTypeSimulation sc ambient).stats =
      runStats [(runTrial sc 42).1] := by
    show runStats (trialsLoop sc sc.trials.toNat 42).1 = _
    rw [show (trialsLoop sc sc.trials.toNat 42).1 = [(runTrial sc 42).1] from hsav]
  have hvar : (runStats [(runTrial sc 42).1]).variance? = none := by
    show jsdiv _ ((([(runTrial sc 42).1].length : ℕ) : ℚ) - 1) = none
    norm_num [jsdiv]
  refine ⟨hsav, ?_, ?_, ?_, ?_, ?_, ?_, ?_, ?_⟩ <;> rw [hstats]
  · show [(runTrial sc 42).1].sum / (([(runTrial sc 42).1].length : ℕ) : ℚ) = _
    norm_num
  · show (sortedQ [(runTrial sc 42).1]).getD ([(runTrial sc 42).1].length / 2) 0 = _
    rw [sortedQ_singleton]
    simp
  · show (sortedQ [(runTrial sc 42).1]).getD
        (⌊(([(runTrial sc 42).1].length : ℕ) : ℚ) * (1/10)⌋).toNat 0 = _
    rw [floor_mul_tenth, sortedQ_singleton]
    simp
  · show (sortedQ [(runTrial sc 42).1]).getD
        (⌊(([(runTrial sc 42).1].length : ℕ) : ℚ) * (9/10)⌋).toNat 0 = _
    rw [floor_mul_nine_tenths, sortedQ_singleton]
    simp
  · rfl
  · rfl
  · exact hvar
  · simp [Stats.std?, hvar]

/-! ## The constant-discount scenario of C8 -/

theorem choiceLoop_single (r q : ℚ) : choiceLoop r 1 [q] 0 0 = 0 := by
  unfold choiceLoop
  split
  · rfl
  · rfl

theorem claim8_probs : probs claim8Scenario = [(1 : ℚ)] := by
  norm_num [probs, totalShare, claim8Scenario]

theorem claim8_minMult : minMult claim8Scenario = [(9/10 : ℚ)] := by
  norm_num [minMult, claim8Scenario]

theorem claim8_maxMult : maxMult claim8Scenario = [(9/10 : ℚ)] := by
  norm_num [maxMult, claim8Scenario]

theorem claim8_choice (s : ℕ) :
    choice s claim8Scenario.farmTypes.length (probs claim8Scenario) = (0, step s) := by
  show (choiceLoop ((step s : ℚ) / (rngDenom : ℚ))
    claim8Scenario.farmTypes.length (probs claim8Scenario) 0 0, step s) = (0, step s)
  rw [claim8_probs]
  rw [show claim8Scenario.farmTypes.length = 1 from rfl]
  rw [choiceLoop_single]

theorem uniform_const (t : ℕ) (c : ℚ) : uniform t c c = (c, step t) := by
  simp [uniform]

/-- In the C8 scenario every drawn multiplier is exactly `0.90`. -/
theorem claim8_farmMults (k s : ℕ) :
    (farmMults claim8Scenario k s).1 = List.replicate k (9/10 : ℚ) := by
  induction k generalizing s with
  | zero => rfl
  | succ k ih =>
      show ((uniform (choice s claim8Scenario.farmTypes.length (probs claim8Scenario)).2
          ((minMult claim8Scenario).getD
            (choice s claim8Scenario.farmTypes.length (probs claim8Scenario)).1 0)
          ((maxMult claim8Scenario).getD
            (choice s claim8Scenario.farmTypes.length (probs claim8Scenario)).1 0)).1 ::
        (farmMults claim8Scenario k
          (uniform (choice s claim8Scenario.farmTypes.length (probs claim8Scenario)).2
            ((minMult claim8Scenario).getD
              (choice s claim8Scenario.farmTypes.length (probs claim8Scenario)).1 0)
            ((maxMult claim8Scenario).getD
              (choice s claim8Scenario.farmTypes.length (probs claim8Scenario)).1 0)).2).1,
        (farmMults claim8Scenario k _).2).1 = _
      rw [claim8_choice, claim8_minMult, claim8_maxMult]
      show ((uniform (step s) ((9/10 : ℚ)) ((9/10 : ℚ))).1 :: _, _).1 = _
      rw [uniform_const]
      show (9/10 : ℚ) :: (farmMults claim8Scenario k (step (step s))).1 = _
      rw [ih, List.replicate_succ]

/-- In the C8 scenario every trial records exactly `100000`, whatever the
RNG state (the rescaling by `lastYearFarms / nFarms` cancels `nFarms`). -/
theorem claim8_runTrial (s : ℕ) : (runTrial claim8Scenario s).1 = 100000 := by
  obtain ⟨hlo, hhi, -, -⟩ :=
    integers_bounds s claim8Scenario.minNewFarms claim8Scenario.maxNewFarms
      (by norm_num [claim8Scenario])
  have h0 : (0 : ℤ) ≤
      (integers s claim8Scenario.minNewFarms claim8Scenario.maxNewFarms).1 := by
    have : claim8Scenario.minNewFarms = 30 := rfl
    omega
  have hne : (((integers s claim8Scenario.minNewFarms
      claim8Scenario.maxNewFarms).1 : ℤ) : ℚ) ≠ 0 := by
    have h30 : (30 : ℤ) ≤
        (integers s claim8Scenario.minNewFarms claim8Scenario.maxNewFarms).1 := hlo
    have : ((30 : ℤ) : ℚ) ≤ (((integers s claim8Scenario.minNewFarms
        claim8Scenario.maxNewFarms).1 : ℤ) : ℚ) := by exact_mod_cast h30
    intro hc
    rw [hc] at this
    norm_num at this
  have hcast : (((integers s claim8Scenario.minNewFarms
        claim8Scenario.maxNewFarms).1.toNat : ℕ) : ℚ) =
      (((integers s claim8Scenario.minNewFarms
        claim8Scenario.maxNewFarms).1 : ℤ) : ℚ) := by
    exact_mod_cast congrArg (Int.cast : ℤ → ℚ) (Int.toNat_of_nonneg h0)
  simp only [runTrial]
  rw [farmLoop_eq_farmMults, zero_add, claim8_farmMults, List.map_replicate,
    List.sum_replicate, nsmul_eq_mul, hcast]
  rw [show avgPriceLastYear claim8Scenario = (1000000 : ℚ) / 30 from rfl,
    show claim8Scenario.lastYearCost = (1000000 : ℚ) from rfl,
    show claim8Scenario.lastYearFarms = (30 : ℚ) from rfl]
  field_simp
  ring

theorem trialsLoop_const (sc : Scenario) (c : ℚ) (hc : ∀ s, (runTrial sc s).1 = c)
    (n s : ℕ) : (trialsLoop sc n s).1 = List.replicate n c := by
  induction n generalizing s with
  | zero => rfl
  | succ n ih => simp [trialsLoop, hc, ih, List.replicate_succ]

theorem claim8_savings (ambient : ℕ) :
    (runFarmTypeSimulation claim8Scenario ambient).savings =
      List.replicate 1000 (100000 : ℚ) := by
  show (trialsLoop claim8Scenario claim8Scenario.trials.toNat
    (initState (some 42) ambient)).1 = _
  rw [show claim8Scenario.trials.toNat = 1000 from rfl,
    show initState (some 42) ambient = 42 from rfl]
  exact trialsLoop_const _ _ claim8_runTrial 1000 42

theorem getD_replicate (c d : ℚ) (n i : ℕ) (h : i < n) :
    (List.replicate n c).getD i d = c := by
  simp only [List.getD, List.get?_eq_getElem?, List.getElem?_replicate, if_pos h]
  rfl

theorem sortedQ_replicate (n : ℕ) (c : ℚ) :
    sortedQ (List.replicate n c) = List.replicate n c := by
  have hp : (sortedQ (List.replicate n c)).Perm (List.replicate n c) :=
    List.mergeSort_perm _ _
  have hlen := hp.length_eq
  rw [List.length_replicate] at hlen
  have hmem : ∀ b ∈ sortedQ (List.replicate n c), b = c := fun b hb =>
    List.eq_of_mem_replicate (hp.mem_iff.mp hb)
  calc
    sortedQ (List.replicate n c)
        = List.replicate (sortedQ (List.replicate n c)).length c :=
          List.eq_replicate_of_mem hmem
    _ = List.replicate n c := by rw [hlen]

theorem claim10_trials_one_std_nan_witness :
    (runFarmTypeSimulation oneTrialScenario 0).stats.variance? = none ∧
      (runFarmTypeSimulation oneTrialScenario 0).savings =
        [(runTrial oneTrialScenario 42).1] :=
  ⟨(claim10_trials_one_std_nan oneTrialScenario 0
      (by simp +decide [scenarioOk, validateScenario, validateFarmType, setErr,
        getErr, totalShare, oneTrialScenario]) rfl).2.2.2.2.2.2.2.1,
    (claim10_trials_one_std_nan oneTrialScenario 0
      (by simp +decide [scenarioOk, validateScenario, validateFarmType, setErr,
        getErr, totalShare, oneTrialScenario]) rfl).1⟩

/-! ## Histogram tally -/

theorem getD_set_incr (bins : List ℕ) (j i : ℕ) (hj : j < bins.length) :
    (bins.set j (bins.getD j 0 + 1)).getD i 0 =
      bins.getD i 0 + (if j = i then 1 else 0) := by
  induction bins generalizing j i with
  | nil => simp at hj
  | cons b bs ih =>
      cases j with
      | zero =>
          cases i with
          | zero => simp [List.getD]
          | succ i => simp [List.getD]
      | succ j =>
          cases i with
          | zero => simp [List.getD]
          | succ i =>
              have hj' : j < bs.length := by simpa using hj
              have := ih j i hj'
              simpa [List.getD] using this

theorem sum_set_incr (bins : List ℕ) (j : ℕ) (hj : j < bins.length) :
    (bins.set j (bins.getD j 0 + 1)).sum = bins.sum + 1 := by
  induction bins generalizing j with
  | nil => simp at hj
  | cons b bs ih =>
      cases j with
      | zero => simp [List.getD]; omega
      | succ j =>
          have hj' : j < bs.length := by simpa using hj
          simp only [List.set, List.sum_cons, List.getD]
          rw [show (b :: bs).get? (j + 1) = bs.get? j from rfl]
          have := ih j hj'
          rw [show (bs.get? j).getD 0 = bs.getD j 0 from rfl]
          omega

/-- The fold body of `histBins`. -/
def histStep (mn w : ℚ) (bins : List ℕ) (v : ℚ) : List ℕ :=
  if w = 0 then bins
  else bins.set (binIndex mn w v) (bins.getD (binIndex mn w v) 0 + 1)

theorem histBins_eq_foldl (mn w : ℚ) (l : List ℚ) :
    histBins mn w l = l.foldl (histStep mn w) (List.replicate 40 0) := rfl

theorem histStep_length (mn w : ℚ) (bins : List ℕ) (v : ℚ) :
    (histStep mn w bins v).length = bins.length := by
  unfold histStep
  split
  · rfl
  · exact List.length_set _ _ _

theorem foldl_histStep_length (mn w : ℚ) (l : List ℚ) (bins : List ℕ) :
    (l.foldl (histStep mn w) bins).length = bins.length := by
  induction l generalizing bins with
  | nil => rfl
  | cons x xs ih => rw [List.foldl_cons, ih, histStep_length]

theorem binIndex_lt (mn w v : ℚ) : binIndex mn w v < 40 := by
  have : binIndex mn w v ≤ 39 := Nat.min_le_right _ _
  omega

theorem foldl_histStep_sum (mn w : ℚ) (hw : w ≠ 0) (l : List ℚ) (bins : List ℕ)
    (hlen : bins.length = 40) :
    (l.foldl (histStep mn w) bins).sum = bins.sum + l.length := by
  induction l generalizing bins with
  | nil => simp
  | cons x xs ih =>
      rw [List.foldl_cons, ih _ (by rw [histStep_length, hlen]),
        show histStep mn w bins x =
          bins.set (binIndex mn w x) (bins.getD (binIndex mn w x) 0 + 1) from
            if_neg hw,
        sum_set_incr _ _ (by rw [hlen]; exact binIndex_lt mn w x)]
      simp
      try omega

theorem foldl_histStep_getD (mn w : ℚ) (hw : w ≠ 0) (l : List ℚ) (bins : List ℕ)
    (hlen : bins.length = 40) (i : ℕ) :
    (l.foldl (histStep mn w) bins).getD i 0 =
      bins.getD i 0 + l.countP (fun v => binIndex mn w v = i) := by
  induction l generalizing bins with
  | nil => simp
  | cons x xs ih =>
      rw [List.foldl_cons, ih _ (by rw [histStep_length, hlen]),
        show histStep mn w bins x =
          bins.set (binIndex mn w x) (bins.getD (binIndex mn w x) 0 + 1) from
            if_neg hw,
        getD_set_incr _ _ _ (by rw [hlen]; exact binIndex_lt mn w x),
        List.countP_cons]
      simp only [decide_eq_true_eq]
      omega

theorem map_range_getD (bins : List ℕ) :
    (List.range bins.length).map (fun i => bins.getD i 0) = bins := by
  induction bins with
  | nil => rfl
  | cons b bs ih =>
      rw [List.length_cons, List.range_succ_eq_map, List.map_cons, List.map_map]
      have h2 : (List.range bs.length).map
            ((fun i => (b :: bs).getD i 0) ∘ (fun i => i + 1)) =
          (List.range bs.length).map (fun i => bs.getD i 0) :=
        List.map_congr_left (fun a _ => rfl)
      rw [h2, ih]
      rfl

theorem getD_map_range (g : ℕ → ℕ) (n i : ℕ) (hi : i < n) :
    ((List.range n).map g).getD i 0 = g i := by
  simp [List.getD, List.get?_eq_getElem?, List.getElem?_map, List.getElem?_range, hi]

/-! ## Claim theorems: histogram -/

/-- C6: for savings with `min < max` the histogram has exactly 40 bins of
width `(max - min)/40`; value `v` lands in bin
`min(floor((v - min)/width), 39)` (never out of range, the maximum clamped
into the last bin), and the 40 counts sum to the number of trials. -/
theorem claim6_histogram (l : List ℚ) (h : listMin l < listMax l) :
    (createHistogramData l).length = 40 ∧
      (∀ v, binIndex (listMin l) ((listMax l - listMin l) / 40) v ≤ 39) ∧
      (∀ i, i < 40 →
        ((createHistogramData l).map Prod.snd).getD i 0 =
          l.countP (fun v =>
            binIndex (listMin l) ((listMax l - listMin l) / 40) v = i)) ∧
      ((createHistogramData l).map Prod.snd).sum = l.length := by
  have hw : (listMax l - listMin l) / 40 ≠ 0 := by
    have : 0 < listMax l - listMin l := by linarith
    positivity
  have hmapsnd : (createHistogramData l).map Prod.snd =
      (List.range 40).map
        (fun i => (histBins (listMin l) ((listMax l - listMin l) / 40) l).getD i 0) := by
    simp only [createHistogramData]
    rw [List.map_map]
    rfl
  have hblen : (histBins (listMin l) ((listMax l - listMin l) / 40) l).length = 40 := by
    rw [histBins_eq_foldl, foldl_histStep_length, List.length_replicate]
  refine ⟨by simp [createHistogramData], fun v => Nat.min_le_right _ _, ?_, ?_⟩
  · intro i hi
    rw [hmapsnd, getD_map_range _ _ _ hi, histBins_eq_foldl,
      foldl_histStep_getD _ _ hw _ _ (by rw [List.length_replicate]),
      getD_replicate_zero, Nat.zero_add]
  · rw [hmapsnd, show (40 : ℕ) = (histBins (listMin l)
      ((listMax l - listMin l) / 40) l).length from hblen.symm, map_range_getD,
      histBins_eq_foldl, foldl_histStep_sum _ _ hw _ _ (by rw [List.length_replicate])]
    simp [List.sum_replicate]

theorem claim6_histogram_witness :
    listMin [(0 : ℚ), 40] < listMax [(0 : ℚ), 40] ∧
      ((createHistogramData [(0 : ℚ), 40]).map Prod.snd).sum = ([(0 : ℚ), 40]).length :=
  ⟨by simp [listMin, listMax, min_def, max_def],
    (claim6_histogram [(0 : ℚ), 40] (by simp [listMin, listMax, min_def, max_def])).2.2.2⟩

/-! ## Claim theorems: mixture mode (spec-modelled) -/

/-- C9 (spec-modelled): a mixture mode is selectable per scenario (the
`SamplingMode` dispatch), and in mixture mode with `pFullPrice = 1` and the
fixed full-price multiplier `1`, every Bernoulli draw `u ∈ [0, 1)` satisfies
`u < pFullPrice`, so every farm's multiplier is exactly `1`, the trial's
scaled cost equals `lastYearCost`, and the savings are exactly `0` (well
within any floating-point tolerance). -/
theorem claim9_mixture_full_price (cost farms : ℚ) (nFarms : ℕ)
    (cfg : MixtureConfig) (us : ℕ → ℚ)
    (hp : cfg.pFullPrice = 1) (hfix : cfg.fullPriceMultiplier = 1)
    (hus : ∀ j, 0 ≤ us j ∧ us j < 1)
    (hn : 1 ≤ nFarms) (hf : farms ≠ 0) :
    (∀ lo hi u ud, modeMultiplier .simple lo hi cfg u ud = lo + (hi - lo) * u) ∧
      (∀ lo hi u ud, modeMultiplier .mixture lo hi cfg u ud =
        mixtureMultiplier cfg u ud) ∧
      (∀ j, mixtureMultiplier cfg (us (2 * j)) (us (2 * j + 1)) = 1) ∧
      mixtureTrialSavings cost farms nFarms cfg us = 0 := by
  have hmul : ∀ j, mixtureMultiplier cfg (us (2 * j)) (us (2 * j + 1)) = 1 := by
    intro j
    unfold mixtureMultiplier
    rw [hp, if_pos (hus (2 * j)).2, hfix]
  refine ⟨fun lo hi u ud => rfl, fun lo hi u ud => rfl, hmul, ?_⟩
  have hnq : ((nFarms : ℕ) : ℚ) ≠ 0 := Nat.cast_ne_zero.2 (by omega)
  simp only [mixtureTrialSavings]
  have hsum : ((List.range nFarms).map
      (fun j => mixtureMultiplier cfg (us (2 * j)) (us (2 * j + 1)) *
        (cost / farms))).sum = (nFarms : ℚ) * (cost / farms) := by
    rw [List.map_congr_left
      (fun j _ => by rw [hmul j, one_mul] :
        ∀ j ∈ List.range nFarms,
          mixtureMultiplier cfg (us (2 * j)) (us (2 * j + 1)) * (cost / farms) =
            cost / farms)]
    rw [List.map_const', List.length_range, List.sum_replicate, nsmul_eq_mul]
  rw [hsum]
  field_simp

theorem claim9_mixture_full_price_witness :
    mixtureTrialSavings 100 2 3 ⟨1, 1, 1/2⟩ (fun _ => 0) = 0 :=
  (claim9_mixture_full_price 100 2 3 ⟨1, 1, 1/2⟩ (fun _ => 0) rfl rfl
    (fun j => ⟨le_refl 0, zero_lt_one⟩) (by decide) two_ne_zero).2.2.2

/-! ## Binary64 layer: rounding facts

Lemmas about `rhe`, `flQ`, `flInt` and the binary64 RNG/engine, used by the
claims whose truth depends on IEEE-754 double rounding (C3 and C8). -/

theorem rhe_intCast (n : ℤ) : rhe (n : ℚ) = n := by
  norm_num [rhe]

theorem rhe_ge_floor (q : ℚ) : ⌊q⌋ ≤ rhe q := by
  unfold rhe
  split_ifs <;> omega

theorem rhe_le (q : ℚ) : (rhe q : ℚ) ≤ q + 1/2 := by
  have hf : (⌊q⌋ : ℚ) ≤ q := Int.floor_le q
  unfold rhe
  split_ifs with h1 h2 h3 <;> push_cast <;> linarith

theorem rhe_ge (q : ℚ) : q - 1/2 ≤ (rhe q : ℚ) := by
  have hf : q < ⌊q⌋ + 1 := Int.lt_floor_add_one q
  unfold rhe
  split_ifs with h1 h2 h3 <;> push_cast <;> linarith

theorem log2_le_self (q : ℚ) (h0 : 0 < q) : (2 : ℚ) ^ (Int.log 2 q) ≤ q := by
  have := Int.zpow_log_le_self (b := 2) (by norm_num) h0
  exact_mod_cast this

theorem lt_log2_succ (q : ℚ) : q < (2 : ℚ) ^ (Int.log 2 q + 1) := by
  have := Int.lt_zpow_succ_log_self (b := 2) (by norm_num) q
  exact_mod_cast this

theorem log2_eq_of_bracket (q : ℚ) (e : ℤ) (h0 : 0 < q)
    (h1 : (2 : ℚ) ^ e ≤ q) (h2 : q < (2 : ℚ) ^ (e + 1)) : Int.log 2 q = e := by
  have hlo : e ≤ Int.log 2 q := by
    by_contra hc
    push_neg at hc
    have hle : (2 : ℚ) ^ (Int.log 2 q + 1) ≤ (2 : ℚ) ^ e := by
      apply zpow_le_zpow_right₀ (by norm_num)
      omega
    linarith [lt_log2_succ q]
  have hhi : Int.log 2 q ≤ e := by
    by_contra hc
    push_neg at hc
    have hle : (2 : ℚ) ^ (e + 1) ≤ (2 : ℚ) ^ (Int.log 2 q) := by
      apply zpow_le_zpow_right₀ (by norm_num)
      omega
    linarith [log2_le_self q h0]
  omega

theorem flQ_zero : flQ 0 = 0 := by simp [flQ]

theorem flQ_eval (e m : ℤ) (q : ℚ) (h0 : 0 < q)
    (h1 : (2 : ℚ) ^ e ≤ q) (h2 : q < (2 : ℚ) ^ (e + 1))
    (hm : rhe (q / (2 : ℚ) ^ (e - 52)) = m) :
    flQ q = (m : ℚ) * (2 : ℚ) ^ (e - 52) := by
  unfold flQ
  rw [if_neg h0.ne', if_pos h0, log2_eq_of_bracket q e h0 h1 h2, hm]

theorem flQ_tenth : flQ (1/10 : ℚ) = 3602879701896397 / 2 ^ 55 := by
  have h := flQ_eval (-4) 7205759403792794 (1/10) (by norm_num) (by norm_num)
    (by norm_num) (by norm_num [rhe])
  rw [h]
  norm_num


theorem log2_le_of_lt (q : ℚ) (k : ℤ) (h0 : 0 < q) (h : q < (2 : ℚ) ^ (k + 1)) :
    Int.log 2 q ≤ k := by
  by_contra hc
  push_neg at hc
  have hle : (2 : ℚ) ^ (k + 1) ≤ (2 : ℚ) ^ (Int.log 2 q) := by
    apply zpow_le_zpow_right₀ (by norm_num)
    omega
  linarith [log2_le_self q h0]

theorem log2_ge_of_le (q : ℚ) (k : ℤ) (h : (2 : ℚ) ^ k ≤ q) :
    k ≤ Int.log 2 q := by
  by_contra hc
  push_neg at hc
  have hle : (2 : ℚ) ^ (Int.log 2 q + 1) ≤ (2 : ℚ) ^ k := by
    apply zpow_le_zpow_right₀ (by norm_num)
    omega
  linarith [lt_log2_succ q]

theorem flQ_le_log (q : ℚ) (h0 : 0 < q) :
    flQ q ≤ q + (2 : ℚ) ^ (Int.log 2 q - 53) := by
  unfold flQ
  rw [if_neg h0.ne', if_pos h0]
  have hu : (0 : ℚ) < (2 : ℚ) ^ (Int.log 2 q - 52) := by positivity
  have h2 : (rhe (q / (2 : ℚ) ^ (Int.log 2 q - 52)) : ℚ) *
      (2 : ℚ) ^ (Int.log 2 q - 52) ≤
      (q / (2 : ℚ) ^ (Int.log 2 q - 52) + 1/2) * (2 : ℚ) ^ (Int.log 2 q - 52) :=
    mul_le_mul_of_nonneg_right (rhe_le _) hu.le
  have h3 : (q / (2 : ℚ) ^ (Int.log 2 q - 52) + 1/2) *
      (2 : ℚ) ^ (Int.log 2 q - 52) =
      q + (2 : ℚ) ^ (Int.log 2 q - 53) := by
    have h4 : (2 : ℚ) ^ (Int.log 2 q - 53) =
        (2 : ℚ) ^ (Int.log 2 q - 52) / 2 := by
      rw [show Int.log 2 q - 53 = (Int.log 2 q - 52) - 1 by ring,
        zpow_sub_one₀ (by norm_num)]
      ring
    rw [h4]
    field_simp
    ring
  linarith

theorem flQ_ge_log (q : ℚ) (h0 : 0 < q) :
    q - (2 : ℚ) ^ (Int.log 2 q - 53) ≤ flQ q := by
  unfold flQ
  rw [if_neg h0.ne', if_pos h0]
  have hu : (0 : ℚ) < (2 : ℚ) ^ (Int.log 2 q - 52) := by positivity
  have h2 : (q / (2 : ℚ) ^ (Int.log 2 q - 52) - 1/2) *
      (2 : ℚ) ^ (Int.log 2 q - 52) ≤
      (rhe (q / (2 : ℚ) ^ (Int.log 2 q - 52)) : ℚ) *
        (2 : ℚ) ^ (Int.log 2 q - 52) :=
    mul_le_mul_of_nonneg_right (rhe_ge _) hu.le
  have h3 : (q / (2 : ℚ) ^ (Int.log 2 q - 52) - 1/2) *
      (2 : ℚ) ^ (Int.log 2 q - 52) =
      q - (2 : ℚ) ^ (Int.log 2 q - 53) := by
    have h4 : (2 : ℚ) ^ (Int.log 2 q - 53) =
        (2 : ℚ) ^ (Int.log 2 q - 52) / 2 := by
      rw [show Int.log 2 q - 53 = (Int.log 2 q - 52) - 1 by ring,
        zpow_sub_one₀ (by norm_num)]
      ring
    rw [h4]
    field_simp
    ring
  linarith

theorem log2_pow_le (q : ℚ) (h0 : 0 < q) :
    (2 : ℚ) ^ (Int.log 2 q - 53) ≤ q * (2 : ℚ) ^ (-53 : ℤ) := by
  have h1 : (2 : ℚ) ^ (Int.log 2 q - 53) =
      (2 : ℚ) ^ (Int.log 2 q) * (2 : ℚ) ^ (-53 : ℤ) := by
    rw [← zpow_add₀ (by norm_num : (2 : ℚ) ≠ 0)]
    ring_nf
  rw [h1]
  exact mul_le_mul_of_nonneg_right (log2_le_self q h0) (by positivity)

theorem flQ_le_rel (q : ℚ) (h0 : 0 < q) :
    flQ q ≤ q * (1 + (2 : ℚ) ^ (-53 : ℤ)) := by
  have := flQ_le_log q h0
  have := log2_pow_le q h0
  nlinarith

theorem flQ_ge_rel (q : ℚ) (h0 : 0 < q) :
    q * (1 - (2 : ℚ) ^ (-53 : ℤ)) ≤ flQ q := by
  have := flQ_ge_log q h0
  have := log2_pow_le q h0
  nlinarith

theorem flQ_pos (q : ℚ) (h : 0 < q) : 0 < flQ q := by
  have h1 := flQ_ge_rel q h
  have h2 : (2 : ℚ) ^ (-53 : ℤ) < 1 := by norm_num
  have h3 : 0 < q * (1 - (2 : ℚ) ^ (-53 : ℤ)) := by
    apply mul_pos h
    linarith
  linarith

theorem flQ_nonneg (q : ℚ) (h : 0 ≤ q) : 0 ≤ flQ q := by
  rcases eq_or_lt_of_le h with h0 | h0
  · rw [← h0, flQ_zero]
  · exact (flQ_pos q h0).le


theorem flQ_ge_int (q : ℚ) (l : ℕ) (h0 : 0 < q) (hle : (l : ℚ) ≤ q)
    (hq : q < (2 : ℚ) ^ (53 : ℤ)) : (l : ℚ) ≤ flQ q := by
  unfold flQ
  rw [if_neg h0.ne', if_pos h0]
  have he : Int.log 2 q ≤ 52 := log2_le_of_lt q 52 h0 (by norm_num at hq ⊢; exact hq)
  have hnn : (0 : ℤ) ≤ 52 - Int.log 2 q := by omega
  have hpow : ((2 : ℚ) ^ ((52 - Int.log 2 q).toNat : ℕ)) =
      (2 : ℚ) ^ (52 - Int.log 2 q) := by
    rw [← zpow_natCast, Int.toNat_of_nonneg hnn]
  have hprod : (2 : ℚ) ^ (52 - Int.log 2 q) * (2 : ℚ) ^ (Int.log 2 q - 52) = 1 := by
    rw [← zpow_add₀ (by norm_num : (2 : ℚ) ≠ 0)]
    norm_num
  have hu : (0 : ℚ) < (2 : ℚ) ^ (Int.log 2 q - 52) := by positivity
  have hk : ((l * 2 ^ (52 - Int.log 2 q).toNat : ℕ) : ℚ) ≤
      q / (2 : ℚ) ^ (Int.log 2 q - 52) := by
    rw [le_div_iff₀ hu]
    push_cast
    rw [hpow, mul_assoc, hprod, mul_one]
    exact hle
  have h1 : ((l * 2 ^ (52 - Int.log 2 q).toNat : ℕ) : ℤ) ≤
      rhe (q / (2 : ℚ) ^ (Int.log 2 q - 52)) := by
    refine le_trans ?_ (rhe_ge_floor _)
    apply Int.le_floor.2
    exact_mod_cast hk
  have h2 : ((l * 2 ^ (52 - Int.log 2 q).toNat : ℕ) : ℚ) *
      (2 : ℚ) ^ (Int.log 2 q - 52) ≤
      (rhe (q / (2 : ℚ) ^ (Int.log 2 q - 52)) : ℚ) *
        (2 : ℚ) ^ (Int.log 2 q - 52) := by
    apply mul_le_mul_of_nonneg_right _ hu.le
    exact_mod_cast h1
  refine le_trans (le_of_eq ?_) h2
  push_cast
  rw [hpow, mul_assoc, hprod, mul_one]

theorem flQ_nat (n : ℕ) (h : n < 2 ^ 53) : flQ (n : ℚ) = n := by
  rcases Nat.eq_zero_or_pos n with h0 | h0
  · rw [h0]
    exact_mod_cast flQ_zero
  · have h0q : (0 : ℚ) < (n : ℚ) := by exact_mod_cast h0
    unfold flQ
    rw [if_neg h0q.ne', if_pos h0q]
    have h53 : (n : ℚ) < (2 : ℚ) ^ (53 : ℤ) := by
      norm_num
      exact_mod_cast h
    have he : Int.log 2 (n : ℚ) ≤ 52 :=
      log2_le_of_lt (n : ℚ) 52 h0q (by norm_num at h53 ⊢; exact h53)
    have hnn : (0 : ℤ) ≤ 52 - Int.log 2 (n : ℚ) := by omega
    have hpow : ((2 : ℚ) ^ ((52 - Int.log 2 (n : ℚ)).toNat : ℕ)) =
        (2 : ℚ) ^ (52 - Int.log 2 (n : ℚ)) := by
      rw [← zpow_natCast, Int.toNat_of_nonneg hnn]
    have hprod : (2 : ℚ) ^ (52 - Int.log 2 (n : ℚ)) *
        (2 : ℚ) ^ (Int.log 2 (n : ℚ) - 52) = 1 := by
      rw [← zpow_add₀ (by norm_num : (2 : ℚ) ≠ 0)]
      norm_num
    have hdiv : (n : ℚ) / (2 : ℚ) ^ (Int.log 2 (n : ℚ) - 52) =
        ((n * 2 ^ (52 - Int.log 2 (n : ℚ)).toNat : ℕ) : ℚ) := by
      rw [div_eq_iff (by positivity)]
      push_cast
      rw [hpow, mul_assoc, hprod, mul_one]
    rw [hdiv]
    rw [show ((n * 2 ^ (52 - Int.log 2 (n : ℚ)).toNat : ℕ) : ℚ) =
      (((n * 2 ^ (52 - Int.log 2 (n : ℚ)).toNat : ℕ) : ℤ) : ℚ) by push_cast; ring]
    rw [rhe_intCast]
    push_cast
    rw [hpow, mul_assoc, hprod, mul_one]

theorem rndNat_even (x k : ℕ) (hk : 1 ≤ k) : 2 ∣ rndNat x k := by
  unfold rndNat
  have h2 : (2 : ℕ) ∣ 2 ^ k := dvd_pow_self 2 (by omega)
  split_ifs <;> exact Dvd.dvd.mul_left h2 _

theorem rndNat_ge (x k : ℕ) : x - 2 ^ k ≤ rndNat x k := by
  unfold rndNat
  have h1 : x / 2 ^ k * 2 ^ k + x % 2 ^ k = x := Nat.div_add_mod' x (2 ^ k)
  have h2 : x % 2 ^ k < 2 ^ k := Nat.mod_lt x (by positivity)
  have h3 : (x / 2 ^ k + 1) * 2 ^ k = x / 2 ^ k * 2 ^ k + 2 ^ k := by ring
  split_ifs <;> omega

theorem flInt_id (x : ℕ) (h : x < 2 ^ 53) : flInt x = x := by
  unfold flInt
  rw [if_pos h]

theorem flInt_even (x : ℕ) (h : 2 ^ 53 ≤ x) : 2 ∣ flInt x := by
  unfold flInt
  rw [if_neg (by omega)]
  split_ifs <;> exact rndNat_even _ _ (by norm_num)

theorem flInt_ge (x : ℕ) (h : 2 ^ 53 ≤ x) : x - 2 ^ 10 ≤ flInt x := by
  unfold flInt
  rw [if_neg (by omega)]
  split_ifs <;>
    exact le_trans (Nat.sub_le_sub_left (by norm_num) x) (rndNat_ge x _)

theorem stepJS_lt (s : ℕ) : stepJS s < 2 ^ 31 := Nat.mod_lt _ (by norm_num)


theorem stepJS_ne_top (s : ℕ) : stepJS s ≠ 2 ^ 31 - 1 := by
  unfold stepJS
  by_cases h53 : s * 1103515245 < 2 ^ 53
  · rw [flInt_id _ h53]
    by_cases h53' : s * 1103515245 + 12345 < 2 ^ 53
    · rw [flInt_id _ h53']
      have hs : s ≤ 8162278 := by omega
      have hslt : s < 2 ^ 31 := by omega
      clear h53 h53'
      intro heq
      have hm : Nat.ModEq (2 ^ 31) (s * 1103515245 + 12345) (2 ^ 31 - 1) := by
        show (s * 1103515245 + 12345) % 2 ^ 31 = (2 ^ 31 - 1) % 2 ^ 31
        rw [heq]
        decide
      have hMc : (2 ^ 31 - 1 - 12345 : ℕ) + 12345 = 2 ^ 31 - 1 := by norm_num
      rw [← hMc] at hm
      have hm2 : Nat.ModEq (2 ^ 31) (s * 1103515245) (2 ^ 31 - 1 - 12345) :=
        Nat.ModEq.add_right_cancel' 12345 hm
      have hmul : Nat.ModEq (2 ^ 31) (s * 1103515245 * 1857678181)
          ((2 ^ 31 - 1 - 12345) * 1857678181) := hm2.mul_right 1857678181
      have hkey : Nat.ModEq (2 ^ 31) (1103515245 * 1857678181) 1 := by
        show (1103515245 * 1857678181) % 2 ^ 31 = 1 % 2 ^ 31
        decide
      have hA : Nat.ModEq (2 ^ 31) s (s * (1103515245 * 1857678181)) := by
        have h5 := hkey.symm.mul_left s
        simpa using h5
      have hB : Nat.ModEq (2 ^ 31) (s * (1103515245 * 1857678181))
          ((2 ^ 31 - 1 - 12345) * 1857678181) := by
        rw [← mul_assoc]
        exact hmul
      have hs2 : s % 2 ^ 31 = ((2 ^ 31 - 1 - 12345) * 1857678181) % 2 ^ 31 :=
        hA.trans hB
      have hfin : ((2 ^ 31 - 1 - 12345 : ℕ) * 1857678181) % 2 ^ 31 = 230538014 := by
        decide
      rw [hfin, Nat.mod_eq_of_lt hslt] at hs2
      clear heq hm hm2 hmul hkey hA hB hMc hfin
      omega
    · have hx : 2 ^ 53 ≤ s * 1103515245 + 12345 := by omega
      clear h53 h53'
      intro heq
      have he := flInt_even (s * 1103515245 + 12345) hx
      clear hx
      generalize flInt (s * 1103515245 + 12345) = y at he heq
      omega
  · push_neg at h53
    have h1e := flInt_even (s * 1103515245) h53
    have h1g := flInt_ge (s * 1103515245) h53
    have h2e : 2 ∣ flInt (flInt (s * 1103515245) + 12345) := by
      apply flInt_even
      generalize flInt (s * 1103515245) = y at h1g
      omega
    intro heq
    generalize flInt (flInt (s * 1103515245) + 12345) = y at h2e heq
    omega

theorem stepJS_le (s : ℕ) : stepJS s ≤ 2 ^ 31 - 2 := by
  have h1 := stepJS_lt s
  have h2 := stepJS_ne_top s
  omega


theorem ratioJS_lt_one (s : ℕ) : flQ ((stepJS s : ℚ) / (rngDenom : ℚ)) < 1 := by
  have hden : (0 : ℚ) < (rngDenom : ℚ) := by norm_num [rngDenom]
  rcases Nat.eq_zero_or_pos (stepJS s) with h | h
  · rw [h]
    norm_num [flQ_zero]
  · have hx : (0 : ℚ) < (stepJS s : ℚ) / (rngDenom : ℚ) := by
      apply div_pos _ hden
      exact_mod_cast h
    have h1 := flQ_le_rel _ hx
    have h2 : ((stepJS s : ℕ) : ℚ) ≤ ((2 ^ 31 - 2 : ℕ) : ℚ) := by
      exact_mod_cast stepJS_le s
    have h3 : (stepJS s : ℚ) / (rngDenom : ℚ) ≤ ((2 ^ 31 - 2 : ℕ) : ℚ) / (rngDenom : ℚ) :=
      (div_le_div_iff_of_pos_right hden).2 h2
    have h4 : (((2 ^ 31 - 2 : ℕ) : ℚ) / (rngDenom : ℚ)) * (1 + (2 : ℚ) ^ (-53 : ℤ)) < 1 := by
      norm_num [rngDenom]
    have h5 : flQ ((stepJS s : ℚ) / (rngDenom : ℚ)) ≤
        (((2 ^ 31 - 2 : ℕ) : ℚ) / (rngDenom : ℚ)) * (1 + (2 : ℚ) ^ (-53 : ℤ)) := by
      refine le_trans h1 ?_
      apply mul_le_mul_of_nonneg_right h3
      norm_num
    linarith


theorem integersJS_in_range (s lo hi : ℕ) (h1 : 1 ≤ lo) (h2 : lo ≤ hi)
    (h3 : hi < 2 ^ 20) :
    (lo : ℤ) ≤ (integersJS s (lo : ℚ) (hi : ℚ)).1 ∧
      (integersJS s (lo : ℚ) (hi : ℚ)).1 ≤ (hi : ℤ) := by
  obtain ⟨d, hd⟩ : ∃ d, hi = lo + d := ⟨hi - lo, by omega⟩
  subst hd
  have hden : (0 : ℚ) < (rngDenom : ℚ) := by norm_num [rngDenom]
  have e1c : ((lo + d : ℕ) : ℚ) - (lo : ℚ) = ((d : ℕ) : ℚ) := by push_cast; ring
  have e1 : flQ (((lo + d : ℕ) : ℚ) - (lo : ℚ)) = (d : ℚ) := by
    rw [e1c]
    exact flQ_nat _ (by omega)
  have e2c : ((d : ℕ) : ℚ) + 1 = ((d + 1 : ℕ) : ℚ) := by push_cast; ring
  have e2 : flQ ((d : ℚ) + 1) = ((d + 1 : ℕ) : ℚ) := by
    rw [e2c]
    exact flQ_nat _ (by omega)
  have hNb : (d + 1) * stepJS s < 2 ^ 53 := by
    have hb1 : d + 1 ≤ 2 ^ 20 := by omega
    have hb2 := stepJS_le s
    have := Nat.mul_le_mul hb1 hb2
    omega
  have e3c : ((d + 1 : ℕ) : ℚ) * ((stepJS s : ℕ) : ℚ) =
      (((d + 1) * stepJS s : ℕ) : ℚ) := by push_cast; ring
  have e3 : flQ (((d + 1 : ℕ) : ℚ) * ((stepJS s : ℕ) : ℚ)) =
      (((d + 1) * stepJS s : ℕ) : ℚ) := by
    rw [e3c]
    exact flQ_nat _ hNb
  have hDel1 : (1 : ℚ) ≤ ((d + 1 : ℕ) : ℚ) := by exact_mod_cast Nat.le_add_left 1 d
  have hqB : flQ ((((d + 1) * stepJS s : ℕ) : ℚ) / (rngDenom : ℚ)) ≤
      ((d + 1 : ℕ) : ℚ) - (2 : ℚ) ^ (-32 : ℤ) := by
    have heps : (0 : ℚ) ≤ (2 : ℚ) ^ (-32 : ℤ) := by positivity
    rcases Nat.eq_zero_or_pos ((d + 1) * stepJS s) with hN0 | hN0
    · rw [hN0]
      rw [show ((0 : ℕ) : ℚ) = 0 from rfl, zero_div, flQ_zero]
      have h32 : (2 : ℚ) ^ (-32 : ℤ) ≤ 1 := by norm_num
      linarith
    · have hx4 : (0 : ℚ) < (((d + 1) * stepJS s : ℕ) : ℚ) / (rngDenom : ℚ) := by
        apply div_pos _ hden
        exact_mod_cast hN0
      have hrel := flQ_le_rel _ hx4
      have hNle : (((d + 1) * stepJS s : ℕ) : ℚ) ≤
          ((d + 1 : ℕ) : ℚ) * ((2 ^ 31 - 2 : ℕ) : ℚ) := by
        have h5 := Nat.mul_le_mul_left (d + 1) (stepJS_le s)
        exact_mod_cast h5
      have hx4le : (((d + 1) * stepJS s : ℕ) : ℚ) / (rngDenom : ℚ) ≤
          ((d + 1 : ℕ) : ℚ) * (((2 ^ 31 - 2 : ℕ) : ℚ) / (rngDenom : ℚ)) := by
        have h6 := (div_le_div_iff_of_pos_right hden).2 hNle
        rw [mul_div_assoc] at h6
        exact h6
      have h53p : (0 : ℚ) ≤ 1 + (2 : ℚ) ^ (-53 : ℤ) := by positivity
      have hchain : flQ ((((d + 1) * stepJS s : ℕ) : ℚ) / (rngDenom : ℚ)) ≤
          ((d + 1 : ℕ) : ℚ) *
            ((((2 ^ 31 - 2 : ℕ) : ℚ) / (rngDenom : ℚ)) * (1 + (2 : ℚ) ^ (-53 : ℤ))) := by
        refine le_trans hrel ?_
        have h7 := mul_le_mul_of_nonneg_right hx4le h53p
        calc (((d + 1) * stepJS s : ℕ) : ℚ) / (rngDenom : ℚ) * (1 + (2 : ℚ) ^ (-53 : ℤ)) ≤
            ((d + 1 : ℕ) : ℚ) * (((2 ^ 31 - 2 : ℕ) : ℚ) / (rngDenom : ℚ)) *
              (1 + (2 : ℚ) ^ (-53 : ℤ)) := h7
          _ = ((d + 1 : ℕ) : ℚ) *
              ((((2 ^ 31 - 2 : ℕ) : ℚ) / (rngDenom : ℚ)) * (1 + (2 : ℚ) ^ (-53 : ℤ))) := by
              ring
      have hB : (((2 ^ 31 - 2 : ℕ) : ℚ) / (rngDenom : ℚ)) * (1 + (2 : ℚ) ^ (-53 : ℤ)) ≤
          1 - (2 : ℚ) ^ (-32 : ℤ) := by
        norm_num [rngDenom]
      have hmul := mul_le_mul_of_nonneg_left hB (le_trans zero_le_one hDel1)
      have hone := mul_le_mul_of_nonneg_right hDel1 heps
      have hid : ((d + 1 : ℕ) : ℚ) * (1 - (2 : ℚ) ^ (-32 : ℤ)) =
          ((d + 1 : ℕ) : ℚ) - ((d + 1 : ℕ) : ℚ) * (2 : ℚ) ^ (-32 : ℤ) := by ring
      linarith
  have hq0 : 0 ≤ flQ ((((d + 1) * stepJS s : ℕ) : ℚ) / (rngDenom : ℚ)) :=
    flQ_nonneg _ (div_nonneg (Nat.cast_nonneg _) hden.le)
  have hlopos : (0 : ℚ) < (lo : ℚ) := by exact_mod_cast h1
  have hx5pos : (0 : ℚ) <
      (lo : ℚ) + flQ ((((d + 1) * stepJS s : ℕ) : ℚ) / (rngDenom : ℚ)) := by
    linarith
  have hsum : (lo : ℚ) + ((d + 1 : ℕ) : ℚ) = ((lo + d : ℕ) : ℚ) + 1 := by
    push_cast
    ring
  have hhiB : ((lo + d : ℕ) : ℚ) < ((2 ^ 20 : ℕ) : ℚ) := by exact_mod_cast h3
  have hx5lt : (lo : ℚ) + flQ ((((d + 1) * stepJS s : ℕ) : ℚ) / (rngDenom : ℚ)) <
      (2 : ℚ) ^ (21 : ℤ) := by
    have h8 : ((2 ^ 20 : ℕ) : ℚ) + 1 < (2 : ℚ) ^ (21 : ℤ) := by norm_num
    linarith
  have hup : flQ ((lo : ℚ) + flQ ((((d + 1) * stepJS s : ℕ) : ℚ) / (rngDenom : ℚ))) ≤
      ((lo : ℚ) + flQ ((((d + 1) * stepJS s : ℕ) : ℚ) / (rngDenom : ℚ))) +
        (2 : ℚ) ^ (-33 : ℤ) := by
    have hET := log2_le_of_lt _ 20 hx5pos
      (by rw [show (20 : ℤ) + 1 = 21 from rfl]; exact hx5lt)
    have h9 := flQ_le_log _ hx5pos
    have hz : (2 : ℚ) ^
        (Int.log 2 ((lo : ℚ) +
          flQ ((((d + 1) * stepJS s : ℕ) : ℚ) / (rngDenom : ℚ))) - 53) ≤
        (2 : ℚ) ^ (-33 : ℤ) := by
      apply zpow_le_zpow_right₀ (by norm_num)
      omega
    linarith
  have hlow : (lo : ℚ) ≤
      flQ ((lo : ℚ) + flQ ((((d + 1) * stepJS s : ℕ) : ℚ) / (rngDenom : ℚ))) := by
    apply flQ_ge_int _ lo hx5pos (by linarith)
    have h10 : (2 : ℚ) ^ (21 : ℤ) ≤ (2 : ℚ) ^ (53 : ℤ) := by
      apply zpow_le_zpow_right₀ (by norm_num)
      omega
    linarith
  have hgoal : (integersJS s (lo : ℚ) ((lo + d : ℕ) : ℚ)).1 =
      ⌊flQ ((lo : ℚ) + flQ ((((d + 1) * stepJS s : ℕ) : ℚ) / (rngDenom : ℚ)))⌋ := by
    simp only [integersJS]
    rw [e1, e2, e3]
  rw [hgoal]
  constructor
  · apply Int.le_floor.2
    exact_mod_cast hlow
  · have hlt : flQ ((lo : ℚ) + flQ ((((d + 1) * stepJS s : ℕ) : ℚ) / (rngDenom : ℚ))) <
        (((lo + d : ℕ) : ℤ) : ℚ) + 1 := by
      have h11 : (2 : ℚ) ^ (-33 : ℤ) < (2 : ℚ) ^ (-32 : ℤ) := by norm_num
      have h12 : (((lo + d : ℕ) : ℤ) : ℚ) = ((lo + d : ℕ) : ℚ) := by push_cast; ring
      linarith
    have h13 : ⌊flQ ((lo : ℚ) +
        flQ ((((d + 1) * stepJS s : ℕ) : ℚ) / (rngDenom : ℚ)))⌋ <
        ((lo + d : ℕ) : ℤ) + 1 := by
      apply Int.floor_lt.2
      push_cast
      push_cast at hlt
      linarith
    omega


theorem flQ_one : flQ (1 : ℚ) = 1 := by
  have h := flQ_eval 0 4503599627370496 (1 : ℚ) (by norm_num) (by norm_num)
    (by norm_num) (by norm_num [rhe])
  rw [h]
  norm_num

theorem flQ_hundred : flQ (100 : ℚ) = 100 := by
  have h := flQ_eval 6 7036874417766400 (100 : ℚ) (by norm_num) (by norm_num)
    (by norm_num) (by norm_num [rhe])
  rw [h]
  norm_num

theorem flQ_oneSubTenth : flQ (1 - 3602879701896397 / 2 ^ 55 : ℚ) = 8106479329266893 / 2 ^ 53 := by
  have h := flQ_eval (-1) 8106479329266893 (1 - 3602879701896397 / 2 ^ 55 : ℚ) (by norm_num) (by norm_num)
    (by norm_num) (by norm_num [rhe])
  rw [h]
  norm_num

theorem flQ_nineTenths : flQ (9/10 : ℚ) = 8106479329266893 / 2 ^ 53 := by
  have h := flQ_eval (-1) 8106479329266893 (9/10 : ℚ) (by norm_num) (by norm_num)
    (by norm_num) (by norm_num [rhe])
  rw [h]
  norm_num

theorem flQ_jsMultFix : flQ (8106479329266893 / 2 ^ 53 : ℚ) = 8106479329266893 / 2 ^ 53 := by
  have h := flQ_eval (-1) 8106479329266893 (8106479329266893 / 2 ^ 53 : ℚ) (by norm_num) (by norm_num)
    (by norm_num) (by norm_num [rhe])
  rw [h]
  norm_num

theorem flQ_avg30 : flQ (1000000 / 30 : ℚ) = 4581298449066667 / 2 ^ 37 := by
  have h := flQ_eval 15 4581298449066667 (1000000 / 30 : ℚ) (by norm_num) (by norm_num)
    (by norm_num) (by norm_num [rhe])
  rw [h]
  norm_num

theorem flQ_multAvg : flQ (8106479329266893 / 2 ^ 53 * (4581298449066667 / 2 ^ 37) : ℚ) = 8246337208320001 / 2 ^ 38 := by
  have h := flQ_eval 14 8246337208320001 (8106479329266893 / 2 ^ 53 * (4581298449066667 / 2 ^ 37) : ℚ) (by norm_num) (by norm_num)
    (by norm_num) (by norm_num [rhe])
  rw [h]
  norm_num

theorem flQ_P30Fix : flQ (7730941132800001 / 2 ^ 33 : ℚ) = 7730941132800001 / 2 ^ 33 := by
  have h := flQ_eval 19 7730941132800001 (7730941132800001 / 2 ^ 33 : ℚ) (by norm_num) (by norm_num)
    (by norm_num) (by norm_num [rhe])
  rw [h]
  norm_num

theorem flQ_savingsVal : flQ (1000000 - 7730941132800001 / 2 ^ 33 : ℚ) = 858993459199999 / 2 ^ 33 := by
  have h := flQ_eval 16 6871947673599992 (1000000 - 7730941132800001 / 2 ^ 33 : ℚ) (by norm_num) (by norm_num)
    (by norm_num) (by norm_num [rhe])
  rw [h]
  norm_num

theorem flQ_idx10 : flQ (1000 * (3602879701896397 / 2 ^ 55) : ℚ) = 100 := by
  have h := flQ_eval 6 7036874417766400 (1000 * (3602879701896397 / 2 ^ 55) : ℚ) (by norm_num) (by norm_num)
    (by norm_num) (by norm_num [rhe])
  rw [h]
  norm_num

theorem flQ_idx90 : flQ (1000 * (8106479329266893 / 2 ^ 53) : ℚ) = 900 := by
  have h := flQ_eval 9 7916483719987200 (1000 * (8106479329266893 / 2 ^ 53) : ℚ) (by norm_num) (by norm_num)
    (by norm_num) (by norm_num [rhe])
  rw [h]
  norm_num

theorem flQ_s21494 : flQ (2147279863 : ℚ) = 2147279863 := by
  have h := flQ_eval 30 9006344518500352 (2147279863 : ℚ) (by norm_num) (by norm_num)
    (by norm_num) (by norm_num [rhe])
  rw [h]
  norm_num

theorem flQ_ratio21494 : flQ (2147279863 / 2147483647 : ℚ) = 4503172261347129 / 2 ^ 52 := by
  have h := flQ_eval (-1) 9006344522694258 (2147279863 / 2147483647 : ℚ) (by norm_num) (by norm_num)
    (by norm_num) (by norm_num [rhe])
  rw [h]
  norm_num

theorem flQ_top40 : flQ (2 ^ 40 + 4503172261347129 / 2 ^ 52 : ℚ) = 2 ^ 40 + 1 := by
  have h := flQ_eval 40 4503599627374592 (2 ^ 40 + 4503172261347129 / 2 ^ 52 : ℚ) (by norm_num) (by norm_num)
    (by norm_num) (by norm_num [rhe])
  rw [h]
  norm_num

theorem flQ_chain1 : flQ ((0 : ℚ) + 8246337208320001 / 2 ^ 38) = 8246337208320001 / 2 ^ 38 := by
  rw [zero_add]
  have h := flQ_eval 14 8246337208320001 (8246337208320001 / 2 ^ 38 : ℚ) (by norm_num)
    (by norm_num) (by norm_num) (by norm_num [rhe])
  rw [h]
  norm_num

theorem flQ_chain2 : flQ ((8246337208320001 / 2 ^ 38) + 8246337208320001 / 2 ^ 38 : ℚ) = 8246337208320001 / 2 ^ 37 := by
  have h := flQ_eval 15 8246337208320001 ((8246337208320001 / 2 ^ 38) + 8246337208320001 / 2 ^ 38 : ℚ) (by norm_num)
    (by norm_num) (by norm_num) (by norm_num [rhe])
  rw [h]
  norm_num

theorem flQ_chain3 : flQ ((8246337208320001 / 2 ^ 37) + 8246337208320001 / 2 ^ 38 : ℚ) = 6184752906240001 / 2 ^ 36 := by
  have h := flQ_eval 16 6184752906240001 ((8246337208320001 / 2 ^ 37) + 8246337208320001 / 2 ^ 38 : ℚ) (by norm_num)
    (by norm_num) (by norm_num) (by norm_num [rhe])
  rw [h]
  norm_num

theorem flQ_chain4 : flQ ((6184752906240001 / 2 ^ 36) + 8246337208320001 / 2 ^ 38 : ℚ) = 8246337208320001 / 2 ^ 36 := by
  have h := flQ_eval 16 8246337208320001 ((6184752906240001 / 2 ^ 36) + 8246337208320001 / 2 ^ 38 : ℚ) (by norm_num)
    (by norm_num) (by norm_num) (by norm_num [rhe])
  rw [h]
  norm_num

theorem flQ_chain5 : flQ ((8246337208320001 / 2 ^ 36) + 8246337208320001 / 2 ^ 38 : ℚ) = 5153960755200001 / 2 ^ 35 := by
  have h := flQ_eval 17 5153960755200001 ((8246337208320001 / 2 ^ 36) + 8246337208320001 / 2 ^ 38 : ℚ) (by norm_num)
    (by norm_num) (by norm_num) (by norm_num [rhe])
  rw [h]
  norm_num

theorem flQ_chain6 : flQ ((5153960755200001 / 2 ^ 35) + 8246337208320001 / 2 ^ 38 : ℚ) = 6184752906240001 / 2 ^ 35 := by
  have h := flQ_eval 17 6184752906240001 ((5153960755200001 / 2 ^ 35) + 8246337208320001 / 2 ^ 38 : ℚ) (by norm_num)
    (by norm_num) (by norm_num) (by norm_num [rhe])
  rw [h]
  norm_num

theorem flQ_chain7 : flQ ((6184752906240001 / 2 ^ 35) + 8246337208320001 / 2 ^ 38 : ℚ) = 7215545057280001 / 2 ^ 35 := by
  have h := flQ_eval 17 7215545057280001 ((6184752906240001 / 2 ^ 35) + 8246337208320001 / 2 ^ 38 : ℚ) (by norm_num)
    (by norm_num) (by norm_num) (by norm_num [rhe])
  rw [h]
  norm_num

theorem flQ_chain8 : flQ ((7215545057280001 / 2 ^ 35) + 8246337208320001 / 2 ^ 38 : ℚ) = 8246337208320001 / 2 ^ 35 := by
  have h := flQ_eval 17 8246337208320001 ((7215545057280001 / 2 ^ 35) + 8246337208320001 / 2 ^ 38 : ℚ) (by norm_num)
    (by norm_num) (by norm_num) (by norm_num [rhe])
  rw [h]
  norm_num

theorem flQ_chain9 : flQ ((8246337208320001 / 2 ^ 35) + 8246337208320001 / 2 ^ 38 : ℚ) = 4638564679680001 / 2 ^ 34 := by
  have h := flQ_eval 18 4638564679680001 ((8246337208320001 / 2 ^ 35) + 8246337208320001 / 2 ^ 38 : ℚ) (by norm_num)
    (by norm_num) (by norm_num) (by norm_num [rhe])
  rw [h]
  norm_num

theorem flQ_chain10 : flQ ((4638564679680001 / 2 ^ 34) + 8246337208320001 / 2 ^ 38 : ℚ) = 5153960755200001 / 2 ^ 34 := by
  have h := flQ_eval 18 5153960755200001 ((4638564679680001 / 2 ^ 34) + 8246337208320001 / 2 ^ 38 : ℚ) (by norm_num)
    (by norm_num) (by norm_num) (by norm_num [rhe])
  rw [h]
  norm_num

theorem flQ_chain11 : flQ ((5153960755200001 / 2 ^ 34) + 8246337208320001 / 2 ^ 38 : ℚ) = 5669356830720001 / 2 ^ 34 := by
  have h := flQ_eval 18 5669356830720001 ((5153960755200001 / 2 ^ 34) + 8246337208320001 / 2 ^ 38 : ℚ) (by norm_num)
    (by norm_num) (by norm_num) (by norm_num [rhe])
  rw [h]
  norm_num

theorem flQ_chain12 : flQ ((5669356830720001 / 2 ^ 34) + 8246337208320001 / 2 ^ 38 : ℚ) = 6184752906240001 / 2 ^ 34 := by
  have h := flQ_eval 18 6184752906240001 ((5669356830720001 / 2 ^ 34) + 8246337208320001 / 2 ^ 38 : ℚ) (by norm_num)
    (by norm_num) (by norm_num) (by norm_num [rhe])
  rw [h]
  norm_num

theorem flQ_chain13 : flQ ((6184752906240001 / 2 ^ 34) + 8246337208320001 / 2 ^ 38 : ℚ) = 6700148981760001 / 2 ^ 34 := by
  have h := flQ_eval 18 6700148981760001 ((6184752906240001 / 2 ^ 34) + 8246337208320001 / 2 ^ 38 : ℚ) (by norm_num)
    (by norm_num) (by norm_num) (by norm_num [rhe])
  rw [h]
  norm_num

theorem flQ_chain14 : flQ ((6700148981760001 / 2 ^ 34) + 8246337208320001 / 2 ^ 38 : ℚ) = 7215545057280001 / 2 ^ 34 := by
  have h := flQ_eval 18 7215545057280001 ((6700148981760001 / 2 ^ 34) + 8246337208320001 / 2 ^ 38 : ℚ) (by norm_num)
    (by norm_num) (by norm_num) (by norm_num [rhe])
  rw [h]
  norm_num

theorem flQ_chain15 : flQ ((7215545057280001 / 2 ^ 34) + 8246337208320001 / 2 ^ 38 : ℚ) = 7730941132800001 / 2 ^ 34 := by
  have h := flQ_eval 18 7730941132800001 ((7215545057280001 / 2 ^ 34) + 8246337208320001 / 2 ^ 38 : ℚ) (by norm_num)
    (by norm_num) (by norm_num) (by norm_num [rhe])
  rw [h]
  norm_num

theorem flQ_chain16 : flQ ((7730941132800001 / 2 ^ 34) + 8246337208320001 / 2 ^ 38 : ℚ) = 8246337208320001 / 2 ^ 34 := by
  have h := flQ_eval 18 8246337208320001 ((7730941132800001 / 2 ^ 34) + 8246337208320001 / 2 ^ 38 : ℚ) (by norm_num)
    (by norm_num) (by norm_num) (by norm_num [rhe])
  rw [h]
  norm_num

theorem flQ_chain17 : flQ ((8246337208320001 / 2 ^ 34) + 8246337208320001 / 2 ^ 38 : ℚ) = 8761733283840001 / 2 ^ 34 := by
  have h := flQ_eval 18 8761733283840001 ((8246337208320001 / 2 ^ 34) + 8246337208320001 / 2 ^ 38 : ℚ) (by norm_num)
    (by norm_num) (by norm_num) (by norm_num [rhe])
  rw [h]
  norm_num

theorem flQ_chain18 : flQ ((8761733283840001 / 2 ^ 34) + 8246337208320001 / 2 ^ 38 : ℚ) = 4638564679680001 / 2 ^ 33 := by
  have h := flQ_eval 19 4638564679680001 ((8761733283840001 / 2 ^ 34) + 8246337208320001 / 2 ^ 38 : ℚ) (by norm_num)
    (by norm_num) (by norm_num) (by norm_num [rhe])
  rw [h]
  norm_num

theorem flQ_chain19 : flQ ((4638564679680001 / 2 ^ 33) + 8246337208320001 / 2 ^ 38 : ℚ) = 4896262717440001 / 2 ^ 33 := by
  have h := flQ_eval 19 4896262717440001 ((4638564679680001 / 2 ^ 33) + 8246337208320001 / 2 ^ 38 : ℚ) (by norm_num)
    (by norm_num) (by norm_num) (by norm_num [rhe])
  rw [h]
  norm_num

theorem flQ_chain20 : flQ ((4896262717440001 / 2 ^ 33) + 8246337208320001 / 2 ^ 38 : ℚ) = 5153960755200001 / 2 ^ 33 := by
  have h := flQ_eval 19 5153960755200001 ((4896262717440001 / 2 ^ 33) + 8246337208320001 / 2 ^ 38 : ℚ) (by norm_num)
    (by norm_num) (by norm_num) (by norm_num [rhe])
  rw [h]
  norm_num

theorem flQ_chain21 : flQ ((5153960755200001 / 2 ^ 33) + 8246337208320001 / 2 ^ 38 : ℚ) = 5411658792960001 / 2 ^ 33 := by
  have h := flQ_eval 19 5411658792960001 ((5153960755200001 / 2 ^ 33) + 8246337208320001 / 2 ^ 38 : ℚ) (by norm_num)
    (by norm_num) (by norm_num) (by norm_num [rhe])
  rw [h]
  norm_num

theorem flQ_chain22 : flQ ((5411658792960001 / 2 ^ 33) + 8246337208320001 / 2 ^ 38 : ℚ) = 5669356830720001 / 2 ^ 33 := by
  have h := flQ_eval 19 5669356830720001 ((5411658792960001 / 2 ^ 33) + 8246337208320001 / 2 ^ 38 : ℚ) (by norm_num)
    (by norm_num) (by norm_num) (by norm_num [rhe])
  rw [h]
  norm_num

theorem flQ_chain23 : flQ ((5669356830720001 / 2 ^ 33) + 8246337208320001 / 2 ^ 38 : ℚ) = 5927054868480001 / 2 ^ 33 := by
  have h := flQ_eval 19 5927054868480001 ((5669356830720001 / 2 ^ 33) + 8246337208320001 / 2 ^ 38 : ℚ) (by norm_num)
    (by norm_num) (by norm_num) (by norm_num [rhe])
  rw [h]
  norm_num

theorem flQ_chain24 : flQ ((5927054868480001 / 2 ^ 33) + 8246337208320001 / 2 ^ 38 : ℚ) = 6184752906240001 / 2 ^ 33 := by
  have h := flQ_eval 19 6184752906240001 ((5927054868480001 / 2 ^ 33) + 8246337208320001 / 2 ^ 38 : ℚ) (by norm_num)
    (by norm_num) (by norm_num) (by norm_num [rhe])
  rw [h]
  norm_num

theorem flQ_chain25 : flQ ((6184752906240001 / 2 ^ 33) + 8246337208320001 / 2 ^ 38 : ℚ) = 6442450944000001 / 2 ^ 33 := by
  have h := flQ_eval 19 6442450944000001 ((6184752906240001 / 2 ^ 33) + 8246337208320001 / 2 ^ 38 : ℚ) (by norm_num)
    (by norm_num) (by norm_num) (by norm_num [rhe])
  rw [h]
  norm_num

theorem flQ_chain26 : flQ ((6442450944000001 / 2 ^ 33) + 8246337208320001 / 2 ^ 38 : ℚ) = 6700148981760001 / 2 ^ 33 := by
  have h := flQ_eval 19 6700148981760001 ((6442450944000001 / 2 ^ 33) + 8246337208320001 / 2 ^ 38 : ℚ) (by norm_num)
    (by norm_num) (by norm_num) (by norm_num [rhe])
  rw [h]
  norm_num

theorem flQ_chain27 : flQ ((6700148981760001 / 2 ^ 33) + 8246337208320001 / 2 ^ 38 : ℚ) = 6957847019520001 / 2 ^ 33 := by
  have h := flQ_eval 19 6957847019520001 ((6700148981760001 / 2 ^ 33) + 8246337208320001 / 2 ^ 38 : ℚ) (by norm_num)
    (by norm_num) (by norm_num) (by norm_num [rhe])
  rw [h]
  norm_num

theorem flQ_chain28 : flQ ((6957847019520001 / 2 ^ 33) + 8246337208320001 / 2 ^ 38 : ℚ) = 7215545057280001 / 2 ^ 33 := by
  have h := flQ_eval 19 7215545057280001 ((6957847019520001 / 2 ^ 33) + 8246337208320001 / 2 ^ 38 : ℚ) (by norm_num)
    (by norm_num) (by norm_num) (by norm_num [rhe])
  rw [h]
  norm_num

theorem flQ_chain29 : flQ ((7215545057280001 / 2 ^ 33) + 8246337208320001 / 2 ^ 38 : ℚ) = 7473243095040001 / 2 ^ 33 := by
  have h := flQ_eval 19 7473243095040001 ((7215545057280001 / 2 ^ 33) + 8246337208320001 / 2 ^ 38 : ℚ) (by norm_num)
    (by norm_num) (by norm_num) (by norm_num [rhe])
  rw [h]
  norm_num

theorem flQ_chain30 : flQ ((7473243095040001 / 2 ^ 33) + 8246337208320001 / 2 ^ 38 : ℚ) = 7730941132800001 / 2 ^ 33 := by
  have h := flQ_eval 19 7730941132800001 ((7473243095040001 / 2 ^ 33) + 8246337208320001 / 2 ^ 38 : ℚ) (by norm_num)
    (by norm_num) (by norm_num) (by norm_num [rhe])
  rw [h]
  norm_num


theorem claim8_totalShareJS : totalShareJS claim8Scenario = 100 := by
  show flQ (0 + 100) = 100
  rw [zero_add]
  exact flQ_hundred

theorem claim8_probsJS : probsJS claim8Scenario = [(1 : ℚ)] := by
  show [flQ ((100 : ℚ) / totalShareJS claim8Scenario)] = [(1 : ℚ)]
  rw [claim8_totalShareJS, show (100 : ℚ) / 100 = 1 by norm_num, flQ_one]

theorem claim8_minMultJS :
    minMultJS claim8Scenario = [(8106479329266893 / 2 ^ 53 : ℚ)] := by
  show [flQ (1 - flQ ((10 : ℚ) / 100))] = [(8106479329266893 / 2 ^ 53 : ℚ)]
  rw [show (10 : ℚ) / 100 = 1/10 by norm_num, flQ_tenth, flQ_oneSubTenth]

theorem claim8_maxMultJS :
    maxMultJS claim8Scenario = [(8106479329266893 / 2 ^ 53 : ℚ)] := by
  show [flQ (1 - flQ ((10 : ℚ) / 100))] = [(8106479329266893 / 2 ^ 53 : ℚ)]
  rw [show (10 : ℚ) / 100 = 1/10 by norm_num, flQ_tenth, flQ_oneSubTenth]

theorem claim8_avgPriceJS :
    avgPriceJS claim8Scenario = 4581298449066667 / 2 ^ 37 := by
  show flQ ((1000000 : ℚ) / 30) = 4581298449066667 / 2 ^ 37
  exact flQ_avg30

theorem claim8_choiceJS (s : ℕ) :
    choiceJS s claim8Scenario.farmTypes.length (probsJS claim8Scenario) =
      (0, stepJS s) := by
  rw [claim8_probsJS]
  show (choiceLoopJS (flQ ((stepJS s : ℚ) / (rngDenom : ℚ))) 1 [(1 : ℚ)] 0 0,
    stepJS s) = (0, stepJS s)
  have h1 : choiceLoopJS (flQ ((stepJS s : ℚ) / (rngDenom : ℚ))) 1 [(1 : ℚ)] 0 0 = 0 := by
    unfold choiceLoopJS
    rw [zero_add, flQ_one, if_pos (ratioJS_lt_one s)]
  rw [h1]

theorem uniformJS_const (s : ℕ) (c : ℚ) (hc : flQ c = c) :
    uniformJS s c c = (c, stepJS s) := by
  show (flQ (c + flQ (flQ (c - c) * flQ ((stepJS s : ℚ) / (rngDenom : ℚ)))),
    stepJS s) = (c, stepJS s)
  rw [sub_self, flQ_zero, zero_mul, flQ_zero, add_zero, hc]

theorem claim8_farmLoopJS_succ (j : ℕ) (acc : ℚ) (s : ℕ) :
    farmLoopJS claim8Scenario (j + 1) acc s =
      farmLoopJS claim8Scenario j (flQ (acc + 8246337208320001 / 2 ^ 38))
        (stepJS (stepJS s)) := by
  simp only [farmLoopJS, claim8_choiceJS, claim8_minMultJS, claim8_maxMultJS,
    claim8_avgPriceJS]
  rw [show ([(8106479329266893 / 2 ^ 53 : ℚ)].getD 0 0) =
    (8106479329266893 / 2 ^ 53 : ℚ) from rfl]
  rw [uniformJS_const (stepJS s) _ flQ_jsMultFix]
  rw [show ((8106479329266893 / 2 ^ 53 : ℚ), stepJS (stepJS s)).1 =
    (8106479329266893 / 2 ^ 53 : ℚ) from rfl]
  rw [show ((8106479329266893 / 2 ^ 53 : ℚ), stepJS (stepJS s)).2 =
    stepJS (stepJS s) from rfl]
  rw [flQ_multAvg]


theorem claim8_farmLoopJS (s : ℕ) :
    (farmLoopJS claim8Scenario 30 0 s).1 = 7730941132800001 / 2 ^ 33 := by
  rw [claim8_farmLoopJS_succ, flQ_chain1]
  rw [claim8_farmLoopJS_succ, flQ_chain2]
  rw [claim8_farmLoopJS_succ, flQ_chain3]
  rw [claim8_farmLoopJS_succ, flQ_chain4]
  rw [claim8_farmLoopJS_succ, flQ_chain5]
  rw [claim8_farmLoopJS_succ, flQ_chain6]
  rw [claim8_farmLoopJS_succ, flQ_chain7]
  rw [claim8_farmLoopJS_succ, flQ_chain8]
  rw [claim8_farmLoopJS_succ, flQ_chain9]
  rw [claim8_farmLoopJS_succ, flQ_chain10]
  rw [claim8_farmLoopJS_succ, flQ_chain11]
  rw [claim8_farmLoopJS_succ, flQ_chain12]
  rw [claim8_farmLoopJS_succ, flQ_chain13]
  rw [claim8_farmLoopJS_succ, flQ_chain14]
  rw [claim8_farmLoopJS_succ, flQ_chain15]
  rw [claim8_farmLoopJS_succ, flQ_chain16]
  rw [claim8_farmLoopJS_succ, flQ_chain17]
  rw [claim8_farmLoopJS_succ, flQ_chain18]
  rw [claim8_farmLoopJS_succ, flQ_chain19]
  rw [claim8_farmLoopJS_succ, flQ_chain20]
  rw [claim8_farmLoopJS_succ, flQ_chain21]
  rw [claim8_farmLoopJS_succ, flQ_chain22]
  rw [claim8_farmLoopJS_succ, flQ_chain23]
  rw [claim8_farmLoopJS_succ, flQ_chain24]
  rw [claim8_farmLoopJS_succ, flQ_chain25]
  rw [claim8_farmLoopJS_succ, flQ_chain26]
  rw [claim8_farmLoopJS_succ, flQ_chain27]
  rw [claim8_farmLoopJS_succ, flQ_chain28]
  rw [claim8_farmLoopJS_succ, flQ_chain29]
  rw [claim8_farmLoopJS_succ, flQ_chain30]
  rfl

theorem claim8_runTrialJS (s : ℕ) :
    (runTrialJS claim8Scenario s).1 = 858993459199999 / 2 ^ 33 := by
  have hn := integersJS_in_range s 30 30 (by norm_num) (le_refl 30) (by norm_num)
  have hv : (integersJS s ((30 : ℕ) : ℚ) ((30 : ℕ) : ℚ)).1 = 30 := by
    have h1 := hn.1
    have h2 := hn.2
    omega
  have hmin : (claim8Scenario.minNewFarms : ℚ) = ((30 : ℕ) : ℚ) := by
    norm_num [claim8Scenario]
  have hmax : (claim8Scenario.maxNewFarms : ℚ) = ((30 : ℕ) : ℚ) := by
    norm_num [claim8Scenario]
  simp only [runTrialJS, hmin, hmax, hv]
  rw [show ((30 : ℤ)).toNat = 30 from rfl]
  rw [claim8_farmLoopJS]
  rw [show claim8Scenario.lastYearFarms / ((30 : ℤ) : ℚ) = 1 by
    norm_num [claim8Scenario]]
  rw [flQ_one, mul_one, flQ_P30Fix]
  rw [show claim8Scenario.lastYearCost = (1000000 : ℚ) from rfl]
  exact flQ_savingsVal

theorem trialsLoopJS_fst_const (sc : Scenario) (c : ℚ)
    (hc : ∀ s, (runTrialJS sc s).1 = c) (n s : ℕ) :
    (trialsLoopJS sc n s).1 = List.replicate n c := by
  induction n generalizing s with
  | zero => rfl
  | succ n ih => simp [trialsLoopJS, hc, ih, List.replicate_succ]

theorem claim8_savingsJS (ambient : ℕ) :
    (runFarmTypeSimulationJS claim8Scenario ambient).savings =
      List.replicate 1000 (858993459199999 / 2 ^ 33 : ℚ) := by
  show (trialsLoopJS claim8Scenario claim8Scenario.trials.toNat
    (initState (some 42) ambient)).1 = _
  rw [show claim8Scenario.trials.toNat = 1000 from rfl,
    show initState (some 42) ambient = 42 from rfl]
  exact trialsLoopJS_fst_const _ _ claim8_runTrialJS 1000 42


theorem listMin_replicate (n : ℕ) (c : ℚ) :
    listMin (List.replicate (n + 1) c) = c := by
  rw [List.replicate_succ]
  show List.foldl min c (List.replicate n c) = c
  exact foldl_min_const c n

theorem listMax_replicate (n : ℕ) (c : ℚ) :
    listMax (List.replicate (n + 1) c) = c := by
  rw [List.replicate_succ]
  show List.foldl max c (List.replicate n c) = c
  exact foldl_max_const c n

theorem claim8_statsJS (ambient : ℕ) :
    (runFarmTypeSimulationJS claim8Scenario ambient).stats =
      runStatsJS (List.replicate 1000 (858993459199999 / 2 ^ 33 : ℚ)) := by
  show runStatsJS (runFarmTypeSimulationJS claim8Scenario ambient).savings = _
  rw [claim8_savingsJS]

theorem claim8_runStatsJS_fields :
    (runStatsJS (List.replicate 1000 (858993459199999 / 2 ^ 33 : ℚ))).median = 858993459199999 / 2 ^ 33 ∧
      (runStatsJS (List.replicate 1000 (858993459199999 / 2 ^ 33 : ℚ))).p10 = 858993459199999 / 2 ^ 33 ∧
      (runStatsJS (List.replicate 1000 (858993459199999 / 2 ^ 33 : ℚ))).p90 = 858993459199999 / 2 ^ 33 ∧
      (runStatsJS (List.replicate 1000 (858993459199999 / 2 ^ 33 : ℚ))).min = 858993459199999 / 2 ^ 33 ∧
      (runStatsJS (List.replicate 1000 (858993459199999 / 2 ^ 33 : ℚ))).max = 858993459199999 / 2 ^ 33 ∧
      (runStatsJS (List.replicate 1000 (858993459199999 / 2 ^ 33 : ℚ))).probPositive = 1 := by
  refine ⟨?_, ?_, ?_, ?_, ?_, ?_⟩
  · show (sortedQ (List.replicate 1000 (858993459199999 / 2 ^ 33 : ℚ))).getD
        ((List.replicate 1000 (858993459199999 / 2 ^ 33 : ℚ)).length / 2) 0 = 858993459199999 / 2 ^ 33
    rw [sortedQ_replicate, List.length_replicate]
    exact getD_replicate _ _ _ _ (by norm_num)
  · show (sortedQ (List.replicate 1000 (858993459199999 / 2 ^ 33 : ℚ))).getD
        (⌊flQ ((((List.replicate 1000 (858993459199999 / 2 ^ 33 : ℚ)).length : ℕ) : ℚ) *
          flQ (1/10))⌋).toNat 0 = 858993459199999 / 2 ^ 33
    rw [sortedQ_replicate, List.length_replicate, flQ_tenth]
    rw [show (((1000 : ℕ) : ℚ)) = (1000 : ℚ) from by norm_num]
    rw [flQ_idx10]
    rw [show ⌊(100 : ℚ)⌋ = 100 from by norm_num]
    exact getD_replicate _ _ _ _ (by norm_num)
  · show (sortedQ (List.replicate 1000 (858993459199999 / 2 ^ 33 : ℚ))).getD
        (⌊flQ ((((List.replicate 1000 (858993459199999 / 2 ^ 33 : ℚ)).length : ℕ) : ℚ) *
          flQ (9/10))⌋).toNat 0 = 858993459199999 / 2 ^ 33
    rw [sortedQ_replicate, List.length_replicate, flQ_nineTenths]
    rw [show (((1000 : ℕ) : ℚ)) = (1000 : ℚ) from by norm_num]
    rw [flQ_idx90]
    rw [show ⌊(900 : ℚ)⌋ = 900 from by norm_num]
    exact getD_replicate _ _ _ _ (by norm_num)
  · show listMin (List.replicate 1000 (858993459199999 / 2 ^ 33 : ℚ)) = 858993459199999 / 2 ^ 33
    exact listMin_replicate 999 _
  · show listMax (List.replicate 1000 (858993459199999 / 2 ^ 33 : ℚ)) = 858993459199999 / 2 ^ 33
    exact listMax_replicate 999 _
  · show flQ ((((List.replicate 1000 (858993459199999 / 2 ^ 33 : ℚ)).filter
        (fun v => 0 < v)).length : ℚ) /
        (((List.replicate 1000 (858993459199999 / 2 ^ 33 : ℚ)).length : ℕ) : ℚ)) = 1
    have hfil : (List.replicate 1000 (858993459199999 / 2 ^ 33 : ℚ)).filter (fun v => 0 < v) =
        List.replicate 1000 (858993459199999 / 2 ^ 33 : ℚ) := by
      rw [List.filter_replicate]
      norm_num
    rw [hfil, List.length_replicate]
    rw [show (((1000 : ℕ) : ℚ)) / (((1000 : ℕ) : ℚ)) = 1 from by norm_num]
    exact flQ_one

theorem integersJS_overflow_2pow40 :
    (integersJS 21494 ((2 : ℚ) ^ 40) ((2 : ℚ) ^ 40)).1 = 2 ^ 40 + 1 := by
  have hstep : stepJS 21494 = 2147279863 := by decide
  simp only [integersJS, hstep]
  rw [sub_self, flQ_zero, zero_add, flQ_one, one_mul]
  rw [show (((2147279863 : ℕ)) : ℚ) = (2147279863 : ℚ) from by norm_num]
  rw [flQ_s21494]
  rw [show (((rngDenom : ℕ)) : ℚ) = (2147483647 : ℚ) from by norm_num [rngDenom]]
  rw [flQ_ratio21494, flQ_top40]
  norm_num


theorem claim8_exact_facts (ambient : ℕ) :
    (∀ k s, (farmMults claim8Scenario k s).1 = List.replicate k (9/10 : ℚ)) ∧
      (runFarmTypeSimulation claim8Scenario ambient).savings =
        List.replicate 1000 (100000 : ℚ) ∧
      (runFarmTypeSimulation claim8Scenario ambient).stats.mean = 100000 ∧
      (runFarmTypeSimulation claim8Scenario ambient).stats.median = 100000 ∧
      (runFarmTypeSimulation claim8Scenario ambient).stats.p10 = 100000 ∧
      (runFarmTypeSimulation claim8Scenario ambient).stats.p90 = 100000 ∧
      (runFarmTypeSimulation claim8Scenario ambient).stats.variance? = some 0 ∧
      (runFarmTypeSimulation claim8Scenario ambient).stats.std? = some 0 ∧
      (runFarmTypeSimulation claim8Scenario ambient).stats.probPositive = 1 := by
  have hsav := claim8_savings ambient
  have hstats : (runFarmTypeSimulation claim8Scenario ambient).stats =
      runStats (List.replicate 1000 (100000 : ℚ)) := by
    show runStats (runFarmTypeSimulation claim8Scenario ambient).savings = _
    rw [hsav]
  have hmean : (List.replicate 1000 (100000 : ℚ)).sum /
      (((List.replicate 1000 (100000 : ℚ)).length : ℕ) : ℚ) = 100000 := by
    rw [List.sum_replicate, nsmul_eq_mul, List.length_replicate]
    norm_num
  have hvar : (runStats (List.replicate 1000 (100000 : ℚ))).variance? = some 0 := by
    show jsdiv ((List.replicate 1000 (100000 : ℚ)).map
        (fun v => (v - (List.replicate 1000 (100000 : ℚ)).sum /
          (((List.replicate 1000 (100000 : ℚ)).length : ℕ) : ℚ)) ^ 2)).sum
      ((((List.replicate 1000 (100000 : ℚ)).length : ℕ) : ℚ) - 1) = some 0
    simp only [hmean, List.map_replicate, sub_self, List.sum_replicate,
      List.length_replicate, smul_zero]
    norm_num [jsdiv]
  refine ⟨claim8_farmMults, hsav, ?_, ?_, ?_, ?_, ?_, ?_, ?_⟩ <;> rw [hstats]
  · exact hmean
  · show (sortedQ (List.replicate 1000 (100000 : ℚ))).getD
        ((List.replicate 1000 (100000 : ℚ)).length / 2) 0 = 100000
    rw [sortedQ_replicate, List.length_replicate]
    exact getD_replicate _ _ _ _ (by norm_num)
  · show (sortedQ (List.replicate 1000 (100000 : ℚ))).getD
        (⌊(((List.replicate 1000 (100000 : ℚ)).length : ℕ) : ℚ) * (1/10)⌋).toNat 0 =
      100000
    rw [sortedQ_replicate, floor_mul_tenth, List.length_replicate]
    exact getD_replicate _ _ _ _ (by norm_num)
  · show (sortedQ (List.replicate 1000 (100000 : ℚ))).getD
        (⌊(((List.replicate 1000 (100000 : ℚ)).length : ℕ) : ℚ) * (9/10)⌋).toNat 0 =
      100000
    rw [sortedQ_replicate, floor_mul_nine_tenths, List.length_replicate]
    exact getD_replicate _ _ _ _ (by norm_num)
  · exact hvar
  · show ((runStats (List.replicate 1000 (100000 : ℚ))).variance?).map
        (fun q => Real.sqrt (q : ℝ)) = some 0
    rw [hvar]
    simp [Real.sqrt_zero]
  · show (((List.replicate 1000 (100000 : ℚ)).filter (fun v => 0 < v)).length : ℚ) /
        (((List.replicate 1000 (100000 : ℚ)).length : ℕ) : ℚ) = 1
    rw [List.filter_replicate]
    norm_num

/-- C3 (counterexample): under binary64 evaluation, starting from RNG state
`21494` (the LCG advances it to `2147279863`), `uniformInt(2^40, 2^40)` returns
`2^40 + 1`, strictly greater than `max`: the double rounding of
`min + (max - min + 1) * state / 0x7fffffff` rounds up past `max`. -/
theorem claim3_uniformInt_counterexample :
    (integersJS 21494 ((2 : ℚ) ^ 40) ((2 : ℚ) ^ 40)).1 = 2 ^ 40 + 1 ∧
      ¬ (integersJS 21494 ((2 : ℚ) ^ 40) ((2 : ℚ) ^ 40)).1 ≤ 2 ^ 40 := by
  constructor
  · exact integersJS_overflow_2pow40
  · rw [integersJS_overflow_2pow40]
    norm_num

/-- C3 (amended): under binary64 evaluation the advanced LCG state is never
`2^31 - 1`, and for all `1 ≤ min ≤ max < 2^20` the result of
`uniformInt(min, max)` lies in `[min, max]`; the universal claim is
nevertheless false, because for large bounds the final rounding can land on
`max + 1`, as at `min = max = 2^40` from state `21494`. -/
theorem claim3_uniformInt_amended :
    (∀ s : ℕ, stepJS s ≠ 2 ^ 31 - 1) ∧
      (∀ s lo hi : ℕ, 1 ≤ lo → lo ≤ hi → hi < 2 ^ 20 →
        (lo : ℤ) ≤ (integersJS s (lo : ℚ) (hi : ℚ)).1 ∧
          (integersJS s (lo : ℚ) (hi : ℚ)).1 ≤ (hi : ℤ)) ∧
      (integersJS 21494 ((2 : ℚ) ^ 40) ((2 : ℚ) ^ 40)).1 = 2 ^ 40 + 1 :=
  ⟨stepJS_ne_top,
    fun s lo hi h1 h2 h3 => integersJS_in_range s lo hi h1 h2 h3,
    integersJS_overflow_2pow40⟩

/-- C3 (witness): the amended in-range bound instantiated at state `0`,
`min = 8`, `max = 15`. -/
theorem claim3_uniformInt_amended_witness :
    (1 ≤ 8 ∧ 8 ≤ 15 ∧ 15 < 2 ^ 20) ∧
      (((8 : ℕ) : ℤ) ≤ (integersJS 0 ((8 : ℕ) : ℚ) ((15 : ℕ) : ℚ)).1 ∧
        (integersJS 0 ((8 : ℕ) : ℚ) ((15 : ℕ) : ℚ)).1 ≤ ((15 : ℕ) : ℤ)) :=
  ⟨⟨by decide, by decide, by decide⟩,
    claim3_uniformInt_amended.2.1 0 8 15 (by decide) (by decide) (by decide)⟩

/-- C8 (counterexample): under binary64 evaluation the first savings value
of the claim's scenario is the double `858993459199999 / 2^33 =
99999.99999999988…`, which is not the exact `100000` the claim asserts. -/
theorem claim8_constant_discount_counterexample :
    (runFarmTypeSimulationJS claim8Scenario 0).savings.getD 0 0 =
        858993459199999 / 2 ^ 33 ∧
      (858993459199999 / 2 ^ 33 : ℚ) ≠ 100000 := by
  constructor
  · rw [claim8_savingsJS]
    exact getD_replicate _ _ _ _ (by norm_num)
  · norm_num

/-- C8 (amended): under binary64 evaluation every drawn multiplier is the
double nearest `0.9` (`8106479329266893 / 2^53`, within `2^-52` of `9/10` but
not equal to it), every trial's savings is the common double
`858993459199999 / 2^33 = 99999.99999999988…` (within `2 * 10^-10` of
`100000` but not equal to it), so the sorted savings are constant:
`median = p10 = p90 = min = max` all equal that double and
`probPositive = 1` exactly; the claim's exact identities — multiplier
`0.90`, savings `100000`, `mean = median = p10 = p90 = 100000`, `std = 0`,
`probPositive = 1` — hold of the same scenario in ideal exact-rational
arithmetic. -/
theorem claim8_constant_discount_amended (ambient : ℕ) :
    (minMultJS claim8Scenario = [(8106479329266893 / 2 ^ 53 : ℚ)] ∧
      maxMultJS claim8Scenario = [(8106479329266893 / 2 ^ 53 : ℚ)] ∧
      (8106479329266893 / 2 ^ 53 : ℚ) ≠ 9/10 ∧
      |(8106479329266893 / 2 ^ 53 : ℚ) - 9/10| < 1 / 2 ^ 52) ∧
    ((∀ s, (runTrialJS claim8Scenario s).1 = 858993459199999 / 2 ^ 33) ∧
      (runFarmTypeSimulationJS claim8Scenario ambient).savings =
        List.replicate 1000 (858993459199999 / 2 ^ 33 : ℚ) ∧
      (858993459199999 / 2 ^ 33 : ℚ) ≠ 100000 ∧
      |(858993459199999 / 2 ^ 33 : ℚ) - 100000| < 2 / 10 ^ 10) ∧
    ((runFarmTypeSimulationJS claim8Scenario ambient).stats.median = 858993459199999 / 2 ^ 33 ∧
      (runFarmTypeSimulationJS claim8Scenario ambient).stats.p10 = 858993459199999 / 2 ^ 33 ∧
      (runFarmTypeSimulationJS claim8Scenario ambient).stats.p90 = 858993459199999 / 2 ^ 33 ∧
      (runFarmTypeSimulationJS claim8Scenario ambient).stats.min = 858993459199999 / 2 ^ 33 ∧
      (runFarmTypeSimulationJS claim8Scenario ambient).stats.max = 858993459199999 / 2 ^ 33 ∧
      (runFarmTypeSimulationJS claim8Scenario ambient).stats.probPositive = 1) ∧
    ((∀ k s, (farmMults claim8Scenario k s).1 = List.replicate k (9/10 : ℚ)) ∧
      (runFarmTypeSimulation claim8Scenario ambient).savings =
        List.replicate 1000 (100000 : ℚ) ∧
      (runFarmTypeSimulation claim8Scenario ambient).stats.mean = 100000 ∧
      (runFarmTypeSimulation claim8Scenario ambient).stats.median = 100000 ∧
      (runFarmTypeSimulation claim8Scenario ambient).stats.p10 = 100000 ∧
      (runFarmTypeSimulation claim8Scenario ambient).stats.p90 = 100000 ∧
      (runFarmTypeSimulation claim8Scenario ambient).stats.variance? = some 0 ∧
      (runFarmTypeSimulation claim8Scenario ambient).stats.std? = some 0 ∧
      (runFarmTypeSimulation claim8Scenario ambient).stats.probPositive = 1) := by
  have hfields := claim8_runStatsJS_fields
  have hst := claim8_statsJS ambient
  refine ⟨⟨claim8_minMultJS, claim8_maxMultJS, by norm_num,
      by rw [abs_sub_lt_iff]; constructor <;> norm_num⟩,
    ⟨claim8_runTrialJS, claim8_savingsJS ambient, by norm_num,
      by rw [abs_sub_lt_iff]; constructor <;> norm_num⟩,
    ⟨?_, ?_, ?_, ?_, ?_, ?_⟩, claim8_exact_facts ambient⟩
  · rw [hst]; exact hfields.1
  · rw [hst]; exact hfields.2.1
  · rw [hst]; exact hfields.2.2.1
  · rw [hst]; exact hfields.2.2.2.1
  · rw [hst]; exact hfields.2.2.2.2.1
  · rw [hst]; exact hfields.2.2.2.2.2

end AppleSim
